import Mathlib

set_option maxRecDepth 8000

/-!
Shallow embedding of the `self-health-check` scripts: the check runner and
summary reducer of `scripts/health-check.js`, the report formatter, the log
appender of `scripts/lib/logger.js`, the trend parser of
`scripts/analyze-trends.js`, the notifier dispatch of `scripts/lib/notifier.js`,
and the check modules `checks/config.js`, `checks/logs.js`, `checks/syntax.js`
and `checks/git.js`.

JavaScript strings are modelled as Lean `String`s (sequences of code points);
statuses are plain strings, as in the source.  Side effects (clock reads,
file reads, subprocess spawns) are passed in explicitly as arguments, and a
JavaScript function that can throw is modelled with `Except`.
-/

/-- A per-check detail line `{status, message}`. -/
structure Detail where
  status : String
  message : String
deriving Repr, DecidableEq

/-- The result record built by `runCheck` in `health-check.js`: `name` and
`duration` are added by the runner, the other fields come from the check
module's returned object (absent JS properties are `none`). -/
structure CheckResult where
  name : String
  status : String
  duration : Nat
  message : Option String := none
  details : Option (List Detail) := none
  error : Option String := none
  fix : Option (List String) := none
  stack : Option String := none
deriving Repr, DecidableEq

/-- The summary record of `generateSummary` (the `timestamp` field, a clock
read, is omitted from the embedding). -/
structure Summary where
  total : Nat
  passed : Nat
  warnings : Nat
  failed : Nat
  errors : Nat
  overallStatus : String
deriving Repr, DecidableEq

/-- `generateSummary(results)` from `scripts/health-check.js` (lines 84-102):
counts statuses by filtering and derives the overall status. -/
def generateSummary (results : List CheckResult) : Summary :=
  let total := results.length
  let passed := (results.filter (fun r => r.status = "pass")).length
  let warnings := (results.filter (fun r => r.status = "warning")).length
  let failed := (results.filter (fun r => r.status = "fail")).length
  let errors := (results.filter (fun r => r.status = "error")).length
  let overallStatus :=
    if errors > 0 ∨ failed > 0 then "fail" else if warnings > 0 then "warning" else "pass"
  { total := total, passed := passed, warnings := warnings, failed := failed,
    errors := errors, overallStatus := overallStatus }

/-- The partial result object returned by a check module's `run`: every field
is optional (JS objects simply may not carry the property). -/
structure PartialResult where
  status : Option String := none
  message : Option String := none
  details : Option (List Detail) := none
  error : Option String := none
  fix : Option (List String) := none
deriving Repr, DecidableEq

/-- A thrown JavaScript `Error` value, reduced to the two fields the runner
reads. -/
structure JsError where
  message : String
  stack : String
deriving Repr, DecidableEq

/-- JS object spread `{..., ...result}`: every property present on `result`
overrides the corresponding property of the base object. -/
def spreadPartial (base : CheckResult) (r : PartialResult) : CheckResult :=
  { base with
    status := r.status.getD base.status
    message := match r.message with | some m => some m | none => base.message
    details := match r.details with | some d => some d | none => base.details
    error := match r.error with | some e => some e | none => base.error
    fix := match r.fix with | some f => some f | none => base.fix }

/-- `runCheck(checkName, checkFn, options)` from `scripts/health-check.js`
(lines 57-79).  The awaited call of the check function is passed in as its
outcome (`.ok` a partial result, `.error` a thrown exception), and the two
`Date.now()` reads are passed in as the measured `duration`.  On success the
source builds `{name, status: result.status || 'unknown', duration, ...result}`;
on a thrown error it returns `{name, status: 'error', duration, error, stack}`.
The function is total: an exception never escapes the runner. -/
def runCheck (checkName : String) (duration : Nat)
    (outcome : Except JsError PartialResult) : CheckResult :=
  match outcome with
  | .ok result =>
      spreadPartial
        { name := checkName
          status := result.status.getD "unknown"
          duration := duration }
        result
  | .error e =>
      { name := checkName
        status := "error"
        duration := duration
        error := some e.message
        stack := some e.stack }

/-! ## Notifier (`scripts/lib/notifier.js`) -/

/-- The configuration fields `notifier.send` reads. -/
structure NotifierConfig where
  notionDbId : Option String
  telegramGroup : String
deriving Repr, DecidableEq

/-- The outcome of one spawned subprocess: either the process closed with an
exit code and captured stdout/stderr, or the spawn itself errored. -/
inductive ProcOutcome where
  | closed (code : Nat) (stdout : String) (stderr : String)
  | failed (message : String)
deriving Repr, DecidableEq

/-- The `{success, output?/error?}` object each channel sender resolves with. -/
structure SendResult where
  success : Bool
  output : Option String := none
  error : Option String := none
deriving Repr, DecidableEq

/-- Shared tail of `sendTelegram`/`sendNotion`: `close` with code 0 resolves
`{success:true, output:stdout}`, a nonzero code `{success:false, error:stderr}`,
and a spawn error `{success:false, error:err.message}`. -/
def procSendResult (p : ProcOutcome) : SendResult :=
  match p with
  | .closed 0 out _ => { success := true, output := some out }
  | .closed _ _ err => { success := false, error := some err }
  | .failed msg => { success := false, error := some msg }

/-- `sendTelegram(config, report)` reduced to its resolution value, given the
outcome of the spawned `notify-group.js` subprocess. -/
def sendTelegram (p : ProcOutcome) : SendResult :=
  procSendResult p

/-- `sendNotion(config, report)` reduced to its resolution value: without a
configured `notionDbId` it resolves `{success:false, error:'No Notion DB ID'}`
without spawning; otherwise as the subprocess outcome dictates. -/
def sendNotion (config : NotifierConfig) (p : ProcOutcome) : SendResult :=
  match config.notionDbId with
  | none => { success := false, error := some "No Notion DB ID" }
  | some _ => procSendResult p

/-- One element of the list `send` returns: `{channel, ...channelResult}`. -/
structure ChannelResult where
  channel : String
  success : Bool
  output : Option String := none
  error : Option String := none
deriving Repr, DecidableEq

/-- `send(config, report)` from `scripts/lib/notifier.js` (lines 155-177):
always awaits the Telegram channel and appends its result; awaits the Notion
channel only when `config.notionDbId` is set, appending its result after the
Telegram one.  Each sender resolves (never rejects), so the surrounding
`try`/`catch` of the source never fires in the model. -/
def notifierSend (config : NotifierConfig) (telegramProc notionProc : ProcOutcome) :
    List ChannelResult :=
  let t := sendTelegram telegramProc
  let first : ChannelResult :=
    { channel := "telegram", success := t.success, output := t.output, error := t.error }
  match config.notionDbId with
  | some _ =>
      let n := sendNotion config notionProc
      [first, { channel := "notion", success := n.success, output := n.output, error := n.error }]
  | none => [first]

/-- `none` when the subprocess outcome counts as success (exit code 0), and
`some msg` with the reported error text otherwise. -/
def procFailureMsg (p : ProcOutcome) : Option String :=
  match p with
  | .closed 0 _ _ => none
  | .closed _ _ err => some err
  | .failed msg => some msg

/-! ## Claims about the runner, reducer and notifier -/

/-- C1: for every finite list of results, `generateSummary` returns the list
length as `total`, the number of results with each of the four recognised
statuses as `passed`/`warnings`/`failed`/`errors`, and an `overallStatus` that
is `fail` when some result failed or errored, else `warning` when some result
warned, else `pass`. -/
theorem generateSummary_spec (results : List CheckResult) :
    (generateSummary results).total = results.length
    ∧ (generateSummary results).passed = results.countP (fun r => r.status = "pass")
    ∧ (generateSummary results).warnings = results.countP (fun r => r.status = "warning")
    ∧ (generateSummary results).failed = results.countP (fun r => r.status = "fail")
    ∧ (generateSummary results).errors = results.countP (fun r => r.status = "error")
    ∧ (generateSummary results).overallStatus =
        (if ∃ r ∈ results, r.status = "fail" ∨ r.status = "error" then "fail"
         else if ∃ r ∈ results, r.status = "warning" then "warning"
         else "pass") := by
  have hfail : (0 < (results.filter (fun r => r.status = "error")).length
        ∨ 0 < (results.filter (fun r => r.status = "fail")).length)
      ↔ (∃ r ∈ results, r.status = "fail" ∨ r.status = "error") := by
    simp only [List.length_pos_iff_exists_mem, List.mem_filter, decide_eq_true_eq]
    constructor
    · rintro (⟨r, hr, hs⟩ | ⟨r, hr, hs⟩)
      · exact ⟨r, hr, Or.inr hs⟩
      · exact ⟨r, hr, Or.inl hs⟩
    · rintro ⟨r, hr, hs | hs⟩
      · exact Or.inr ⟨r, hr, hs⟩
      · exact Or.inl ⟨r, hr, hs⟩
  have hwarn : (0 < (results.filter (fun r => r.status = "warning")).length)
      ↔ (∃ r ∈ results, r.status = "warning") := by
    simp only [List.length_pos_iff_exists_mem, List.mem_filter, decide_eq_true_eq]
  refine ⟨rfl, ?_, ?_, ?_, ?_, ?_⟩
  · simp [generateSummary, List.countP_eq_length_filter]
  · simp [generateSummary, List.countP_eq_length_filter]
  · simp [generateSummary, List.countP_eq_length_filter]
  · simp [generateSummary, List.countP_eq_length_filter]
  · by_cases h1 : ∃ r ∈ results, r.status = "fail" ∨ r.status = "error"
    · have hf := hfail.mpr h1
      simp [generateSummary, hf, h1]
    · have hf := (not_congr hfail).mpr h1
      by_cases h2 : ∃ r ∈ results, r.status = "warning"
      · have hw := hwarn.mpr h2
        simp [generateSummary, hf, hw, h1, h2]
      · have hw := (not_congr hwarn).mpr h2
        simp [generateSummary, hf, hw, h1, h2]

/-- C9 (implicit): a result whose status is none of pass/warning/fail/error —
such as the `unknown` status `runCheck` assigns when a check returns no status
field — counts towards `total` but towards none of the four counters and has
no effect on `overallStatus`; a run of only `unknown` results is overall
`pass`. -/
theorem generateSummary_unknown_spec (rs1 rs2 : List CheckResult) (r : CheckResult)
    (h1 : r.status ≠ "pass") (h2 : r.status ≠ "warning")
    (h3 : r.status ≠ "fail") (h4 : r.status ≠ "error") :
    ((generateSummary (rs1 ++ r :: rs2)).total = (generateSummary (rs1 ++ rs2)).total + 1
     ∧ (generateSummary (rs1 ++ r :: rs2)).passed = (generateSummary (rs1 ++ rs2)).passed
     ∧ (generateSummary (rs1 ++ r :: rs2)).warnings = (generateSummary (rs1 ++ rs2)).warnings
     ∧ (generateSummary (rs1 ++ r :: rs2)).failed = (generateSummary (rs1 ++ rs2)).failed
     ∧ (generateSummary (rs1 ++ r :: rs2)).errors = (generateSummary (rs1 ++ rs2)).errors
     ∧ (generateSummary (rs1 ++ r :: rs2)).overallStatus
         = (generateSummary (rs1 ++ rs2)).overallStatus)
    ∧ (∀ rs : List CheckResult, (∀ x ∈ rs, x.status = "unknown") →
         (generateSummary rs).overallStatus = "pass") := by
  constructor
  · refine ⟨?_, ?_, ?_, ?_, ?_, ?_⟩ <;>
      simp [generateSummary, List.filter_append, List.filter_cons, h1, h2, h3, h4,
        Nat.add_assoc, Nat.add_comm, Nat.add_left_comm]
  · intro rs hrs
    have hw : rs.filter (fun x => x.status = "warning") = [] :=
      List.filter_eq_nil_iff.mpr (fun a ha => by simp [hrs a ha])
    have hf : rs.filter (fun x => x.status = "fail") = [] :=
      List.filter_eq_nil_iff.mpr (fun a ha => by simp [hrs a ha])
    have he : rs.filter (fun x => x.status = "error") = [] :=
      List.filter_eq_nil_iff.mpr (fun a ha => by simp [hrs a ha])
    simp [generateSummary, hw, hf, he]

/-- Closed witness for `generateSummary_unknown_spec` at a concrete result. -/
theorem generateSummary_unknown_spec_witness :
    ((generateSummary ([] ++ ⟨"Config Check", "unknown", 3, none, none, none, none, none⟩ :: [])).total
        = (generateSummary ([] ++ [])).total + 1)
    ∧ (generateSummary [⟨"Config Check", "unknown", 3, none, none, none, none, none⟩]).overallStatus
        = "pass" :=
  ⟨(generateSummary_unknown_spec [] [] ⟨"Config Check", "unknown", 3, none, none, none, none, none⟩
      (by decide) (by decide) (by decide) (by decide)).1.1,
   (generateSummary_unknown_spec [] [] ⟨"Config Check", "unknown", 3, none, none, none, none, none⟩
      (by decide) (by decide) (by decide) (by decide)).2
     [⟨"Config Check", "unknown", 3, none, none, none, none, none⟩] (by decide)⟩

/-- C3: `runCheck` is total — a check that returns a partial result `r` yields
the record `{name, duration}` merged with `r`'s fields (status defaulting to
`unknown`), and a check that throws `e` yields
`{name, status:'error', duration, error: e.message, stack}` instead of
propagating the exception. -/
theorem runCheck_spec (checkName : String) (duration : Nat) :
    (∀ r : PartialResult,
        runCheck checkName duration (.ok r) =
          { name := checkName
            status := r.status.getD "unknown"
            duration := duration
            message := r.message
            details := r.details
            error := r.error
            fix := r.fix
            stack := none })
    ∧ (∀ e : JsError,
        runCheck checkName duration (.error e) =
          { name := checkName
            status := "error"
            duration := duration
            message := none
            details := none
            error := some e.message
            fix := none
            stack := some e.stack }) := by
  constructor
  · rintro ⟨st, msg, det, err, fx⟩
    cases st <;> cases msg <;> cases det <;> cases err <;> cases fx <;> rfl
  · intro e
    rfl

/-- C8: `notifier.send` always attempts the Telegram channel, attempts the
Notion channel exactly when `notionDbId` is configured, returns one result
per attempted channel in that order, and a failing channel contributes
`{channel, success:false, error}` — the Telegram outcome never prevents the
Notion attempt. -/
theorem notifierSend_spec (config : NotifierConfig) (tp np : ProcOutcome) :
    ((notifierSend config tp np).map (fun c => c.channel)
        = "telegram" :: (if config.notionDbId.isSome then ["notion"] else []))
    ∧ (∀ msg, procFailureMsg tp = some msg →
        (notifierSend config tp np).head?
          = some { channel := "telegram", success := false, output := none, error := some msg })
    ∧ (∀ dbId msg, config.notionDbId = some dbId → procFailureMsg np = some msg →
        (notifierSend config tp np).getLast?
          = some { channel := "notion", success := false, output := none, error := some msg }) := by
  refine ⟨?_, ?_, ?_⟩
  · cases hdb : config.notionDbId <;> simp [notifierSend, hdb]
  · intro msg hmsg
    cases tp with
    | closed code out err =>
        cases code with
        | zero => simp [procFailureMsg] at hmsg
        | succ n =>
            simp only [procFailureMsg] at hmsg
            cases hdb : config.notionDbId <;>
              simp_all [notifierSend, sendTelegram, procSendResult, hdb]
    | failed m =>
        simp only [procFailureMsg, Option.some.injEq] at hmsg
        cases hdb : config.notionDbId <;>
          simp_all [notifierSend, sendTelegram, procSendResult, hdb]
  · intro dbId msg hdb hmsg
    cases np with
    | closed code out err =>
        cases code with
        | zero => simp [procFailureMsg] at hmsg
        | succ n =>
            simp only [procFailureMsg, Option.some.injEq] at hmsg
            simp_all [notifierSend, sendNotion, procSendResult, hdb]
    | failed m =>
        simp only [procFailureMsg, Option.some.injEq] at hmsg
        simp_all [notifierSend, sendNotion, procSendResult, hdb]

/-- Closed witness for `notifierSend_spec`: a failing Telegram subprocess and
a configured, failing Notion channel. -/
theorem notifierSend_spec_witness :
    ((notifierSend ⟨some "db-id", "discussion"⟩ (.failed "spawn failed") (.closed 1 "" "boom")).map
        (fun c => c.channel) = "telegram" :: (if (some "db-id" : Option String).isSome then ["notion"] else []))
    ∧ (notifierSend ⟨some "db-id", "discussion"⟩ (.failed "spawn failed") (.closed 1 "" "boom")).head?
        = some { channel := "telegram", success := false, output := none, error := some "spawn failed" }
    ∧ (notifierSend ⟨some "db-id", "discussion"⟩ (.failed "spawn failed") (.closed 1 "" "boom")).getLast?
        = some { channel := "notion", success := false, output := none, error := some "boom" } :=
  ⟨(notifierSend_spec ⟨some "db-id", "discussion"⟩ (.failed "spawn failed") (.closed 1 "" "boom")).1,
   (notifierSend_spec ⟨some "db-id", "discussion"⟩ (.failed "spawn failed") (.closed 1 "" "boom")).2.1
     "spawn failed" rfl,
   (notifierSend_spec ⟨some "db-id", "discussion"⟩ (.failed "spawn failed") (.closed 1 "" "boom")).2.2
     "db-id" "boom" rfl rfl⟩

/-! ## String helpers shared by the embedded modules -/

/-- The whitespace characters relevant to the embedded scripts (JS `trim` /
`\s`). -/
def jsIsWhitespace (c : Char) : Bool :=
  c = ' ' || c = '\t' || c = '\n' || c = '\r' || c = Char.ofNat 11 || c = Char.ofNat 12

/-- JS `String.prototype.trim`, on the characters that occur here. -/
def jsTrim (s : String) : String :=
  ⟨((s.data.dropWhile jsIsWhitespace).reverse.dropWhile jsIsWhitespace).reverse⟩

/-- Helper of `jsSplitChar`: accumulates the current piece in reverse. -/
def splitOnCharAux (sep : Char) : List Char → List Char → List (List Char)
  | [], acc => [acc.reverse]
  | c :: cs, acc =>
      if c = sep then acc.reverse :: splitOnCharAux sep cs []
      else splitOnCharAux sep cs (c :: acc)

/-- JS `s.split(sep)` for a single-character separator: every occurrence
splits, an empty string yields `[""]`. -/
def jsSplitChar (sep : Char) (s : String) : List String :=
  (splitOnCharAux sep s.data []).map fun l => ⟨l⟩

/-- JS `s.startsWith(pre)`. -/
def jsStartsWith (s pre : String) : Bool :=
  pre.data.isPrefixOf s.data

/-- Case-insensitive hit of the literal `alt` at the head of `s` (ASCII case
folding, as in the `/i` regexes of the source, whose patterns are ASCII). -/
def ciHitAt (s alt : List Char) : Bool :=
  decide (alt.length ≤ s.length)
    && ((s.take alt.length).map Char.toLower == alt.map Char.toLower)

/-- Leftmost, then first-alternative match of an alternation of literals,
case-insensitively; returns the matched slice of the subject (JS
`content.match(/a|b|c/i)?.[0]`). -/
def ciFirstMatch (alts : List (List Char)) : List Char → Option (List Char)
  | [] => if alts.any (fun a => a.isEmpty) then some [] else none
  | s@(_ :: rest) =>
      match alts.find? (fun a => ciHitAt s a) with
      | some a => some (s.take a.length)
      | none => ciFirstMatch alts rest

/-- Case-insensitive substring test (JS `/lit/i.test(s)` for a literal). -/
def ciContains (s : String) (lit : String) : Bool :=
  (ciFirstMatch [lit.data] s.data).isSome

/-! ## Config check (`scripts/checks/config.js`) -/

def REQUIRED_ENV_VARS : List String :=
  ["NOTION_API_KEY", "NOTION_DISCUSSION_DATABASE_ID", "NOTION_DAILY_REPORT_DATABASE_ID",
   "TELEGRAM_BOT_TOKEN", "TELEGRAM_DISCUSSION_GROUP_ID", "TELEGRAM_DAILY_REPORT_GROUP_ID"]

def OPTIONAL_ENV_VARS : List String :=
  ["TELEGRAM_GENERAL_GROUP_ID", "NOTION_MEETING_DATABASE_ID"]

/-- The `lines.find(l => l.startsWith(varName+'=') || l.startsWith(varName+' '))`
lookup of `checkEnvFile`. -/
def findEnvLine (lines : List String) (varName : String) : Option String :=
  lines.find? fun l => jsStartsWith l (varName ++ "=") || jsStartsWith l (varName ++ " ")

/-- `line.split('=')[1].trim()`: throws (models the JS `TypeError`) when the
line holds no `=` so that index 1 is `undefined`. -/
def envValueAfterEq (line : String) : Except String String :=
  match (jsSplitChar '=' line)[1]? with
  | some v => .ok (jsTrim v)
  | none => .error "Cannot read properties of undefined (reading 'trim')"

/-- The accumulators of `checkEnvFile`'s loop over the required variables. -/
structure EnvScan where
  definedVars : List String := []
  emptyVars : List String := []
  missingVars : List String := []
  issues : List String := []
  fixes : List String := []
deriving Repr, DecidableEq

/-- The `for (const varName of REQUIRED_ENV_VARS)` loop of `checkEnvFile`
(config.js lines 53-67); `.error` models the `TypeError` thrown by
`line.split('=')[1].trim()` on a line without `=`, which aborts the loop. -/
def scanRequiredVars (lines : List String) : List String → Except String EnvScan
  | [] => .ok {}
  | v :: vs =>
      match findEnvLine lines v with
      | none =>
          match scanRequiredVars lines vs with
          | .error e => .error e
          | .ok rest => .ok { rest with
              missingVars := v :: rest.missingVars
              issues := ("Missing required variable: " ++ v) :: rest.issues
              fixes := ("Add " ++ v ++ "=your_value to .env") :: rest.fixes }
      | some line =>
          match envValueAfterEq line with
          | .error e => .error e
          | .ok value =>
              if value = "" then
                match scanRequiredVars lines vs with
                | .error e => .error e
                | .ok rest => .ok { rest with
                    emptyVars := v :: rest.emptyVars
                    issues := ("Empty value for: " ++ v) :: rest.issues
                    fixes := ("Set a value for " ++ v ++ " in .env") :: rest.fixes }
              else
                match scanRequiredVars lines vs with
                | .error e => .error e
                | .ok rest => .ok { rest with definedVars := v :: rest.definedVars }

/-- The two `suspiciousPatterns` scans of `checkEnvFile` (alternations of
literals, `/i`): each matching pattern contributes one warning detail holding
the matched text. -/
def suspiciousDetails (content : String) : List Detail :=
  let pats : List (List String × String) :=
    [(["your_token_here", "your_api_key", "replace_with"], "placeholder value"),
     (["secret", "password", "token", "key"], "potential secret in env")]
  pats.filterMap fun p =>
    match ciFirstMatch (p.1.map String.data) content.data with
    | some m => some ⟨"warning", "Found " ++ p.2 ++ ": " ++ ⟨m⟩⟩
    | none => none

/-- The object `checkEnvFile` returns (optional JS properties are `Option`). -/
structure EnvFileResult where
  status : String
  message : String
  details : Option (List Detail)
  error : Option String
  fix : Option (List String)
deriving Repr, DecidableEq

/-- `checkEnvFile(envPath)` from `scripts/checks/config.js` (lines 29-133).
The file system read is passed in: `none` when `existsSync` is false, else the
file's content.  The `catch` of the source turns the `TypeError` thrown inside
the required-variable loop into the `{status:'error', message:'Failed to read
.env file', error}` result. -/
def checkEnvFile (envPath : String) (file : Option String) : EnvFileResult :=
  match file with
  | none =>
      { status := "fail"
        message := ".env file not found: " ++ envPath
        details := some []
        error := none
        fix := some ["Create .env file at: " ++ envPath] }
  | some content =>
      let lines := jsSplitChar '\n' content
      match scanRequiredVars lines REQUIRED_ENV_VARS with
      | .error e =>
          { status := "error"
            message := "Failed to read .env file"
            details := none
            error := some e
            fix := none }
      | .ok scan =>
          let missingOptional := OPTIONAL_ENV_VARS.filter fun v => (findEnvLine lines v).isNone
          let details : List Detail :=
            [⟨"pass", "Found " ++ toString scan.definedVars.length ++ "/"
                ++ toString REQUIRED_ENV_VARS.length ++ " required variables"⟩]
            ++ (if scan.definedVars.length > 0 then
                  [⟨"pass", "Defined: " ++ String.intercalate ", " scan.definedVars⟩] else [])
            ++ (if scan.missingVars.length > 0 then
                  [⟨"fail", "Missing: " ++ String.intercalate ", " scan.missingVars⟩] else [])
            ++ (if scan.emptyVars.length > 0 then
                  [⟨"fail", "Empty values: " ++ String.intercalate ", " scan.emptyVars⟩] else [])
            ++ (if missingOptional.length > 0 then
                  [⟨"warning", "Optional not set: " ++ String.intercalate ", " missingOptional⟩] else [])
            ++ suspiciousDetails content
          let status :=
            if scan.missingVars.length > 0 ∨ scan.emptyVars.length > 0 then "fail"
            else if missingOptional.length > 0 then "warning"
            else "pass"
          { status := status
            message := "Config check: " ++ toString scan.definedVars.length ++ "/"
              ++ toString REQUIRED_ENV_VARS.length ++ " required vars set"
            details := some details
            error := if scan.issues.length > 0 then some (String.intercalate "; " scan.issues) else none
            fix := some scan.fixes }

/-- Per-variable classification mirroring one iteration of the required-vars
loop: `none` when the iteration would throw (found line without `=`). -/
inductive VarClass where
  | missing
  | empty
  | defined
deriving Repr, DecidableEq

/-- Classification of one variable against the file's lines. -/
def classifyVar (lines : List String) (v : String) : Option VarClass :=
  match findEnvLine lines v with
  | none => some .missing
  | some l =>
      match envValueAfterEq l with
      | .error _ => none
      | .ok w => some (if w = "" then .empty else .defined)

/-- When no required-variable iteration throws, the loop classifies each
variable independently: the three accumulator lists are filters of the
variable list and issues/fixes are the matching per-variable messages. -/
theorem scanRequiredVars_of_noThrow (lines : List String) (vars : List String)
    (h : ∀ v ∈ vars, classifyVar lines v ≠ none) :
    scanRequiredVars lines vars = .ok
      { definedVars := vars.filter (fun v => classifyVar lines v = some .defined)
        emptyVars := vars.filter (fun v => classifyVar lines v = some .empty)
        missingVars := vars.filter (fun v => classifyVar lines v = some .missing)
        issues := vars.filterMap (fun v =>
          match classifyVar lines v with
          | some .missing => some ("Missing required variable: " ++ v)
          | some .empty => some ("Empty value for: " ++ v)
          | _ => none)
        fixes := vars.filterMap (fun v =>
          match classifyVar lines v with
          | some .missing => some ("Add " ++ v ++ "=your_value to .env")
          | some .empty => some ("Set a value for " ++ v ++ " in .env")
          | _ => none) } := by
  induction vars with
  | nil => rfl
  | cons v vs ih =>
      have hv := h v (by simp)
      have hrest := ih (fun w hw => h w (by simp [hw]))
      cases hf : findEnvLine lines v with
      | none =>
          have hc : classifyVar lines v = some .missing := by simp [classifyVar, hf]
          simp [scanRequiredVars, hf, hrest, List.filter_cons,
            List.filterMap_cons, hc]
      | some l =>
          cases he : envValueAfterEq l with
          | error e => exact absurd (by simp [classifyVar, hf, he]) hv
          | ok w =>
              by_cases hw : w = ""
              · have hc : classifyVar lines v = some .empty := by
                  simp [classifyVar, hf, he, hw]
                simp [scanRequiredVars, hf, he, hw, hrest,
                  List.filter_cons, List.filterMap_cons, hc]
              · have hc : classifyVar lines v = some .defined := by
                  simp [classifyVar, hf, he, hw]
                simp [scanRequiredVars, hf, he, hw, hrest,
                  List.filter_cons, List.filterMap_cons, hc]

/-- If any required-variable iteration would throw (a found line without `=`),
the whole loop throws. -/
theorem scanRequiredVars_of_throw (lines : List String) (vars : List String)
    (h : ∃ v ∈ vars, classifyVar lines v = none) :
    ∃ e, scanRequiredVars lines vars = .error e := by
  induction vars with
  | nil => simp at h
  | cons v vs ih =>
      obtain ⟨w, hw, hcw⟩ := h
      cases hf : findEnvLine lines v with
      | none =>
          rcases List.mem_cons.mp hw with rfl | hwvs
          · simp [classifyVar, hf] at hcw
          · obtain ⟨e, he⟩ := ih ⟨w, hwvs, hcw⟩
            exact ⟨e, by simp [scanRequiredVars, hf, he]⟩
      | some l =>
          cases he : envValueAfterEq l with
          | error e => exact ⟨e, by simp [scanRequiredVars, hf, he]⟩
          | ok val =>
              rcases List.mem_cons.mp hw with rfl | hwvs
              · simp [classifyVar, hf, he] at hcw
              · obtain ⟨e2, he2⟩ := ih ⟨w, hwvs, hcw⟩
                by_cases hv : val = "" <;>
                  exact ⟨e2, by simp [scanRequiredVars, hf, he, hv, he2]⟩

/-- C10 (implicit): a settings file in which some required variable's first
matching line begins with the variable name followed by a space (the
`startsWith(varName + ' ')` branch) but holds no `=` makes
`line.split('=')[1].trim()` throw; `checkEnvFile`'s own handler catches it and
the whole per-file check returns `status:'error'` with message
`'Failed to read .env file'`. -/
theorem checkEnvFile_space_line_error (envPath content v l : String)
    (hv : v ∈ REQUIRED_ENV_VARS)
    (hfind : findEnvLine (jsSplitChar '\n' content) v = some l)
    (_hsp : jsStartsWith l (v ++ " ") = true)
    (hnoeq : (jsSplitChar '=' l)[1]? = none) :
    (checkEnvFile envPath (some content)).status = "error"
    ∧ (checkEnvFile envPath (some content)).message = "Failed to read .env file"
    ∧ (checkEnvFile envPath (some content)).error.isSome = true := by
  have hclass : classifyVar (jsSplitChar '\n' content) v = none := by
    simp [classifyVar, hfind, envValueAfterEq, hnoeq]
  obtain ⟨e, he⟩ := scanRequiredVars_of_throw (jsSplitChar '\n' content) REQUIRED_ENV_VARS
    ⟨v, hv, hclass⟩
  refine ⟨?_, ?_, ?_⟩ <;> simp [checkEnvFile, he]

/-- Closed witness for `checkEnvFile_space_line_error`: the single line
`NOTION_API_KEY x`. -/
theorem checkEnvFile_space_line_error_witness :
    ("NOTION_API_KEY" ∈ REQUIRED_ENV_VARS
     ∧ findEnvLine (jsSplitChar '\n' "NOTION_API_KEY x") "NOTION_API_KEY"
         = some "NOTION_API_KEY x"
     ∧ jsStartsWith "NOTION_API_KEY x" ("NOTION_API_KEY" ++ " ") = true
     ∧ (jsSplitChar '=' "NOTION_API_KEY x")[1]? = none)
    ∧ (checkEnvFile "/app/.env" (some "NOTION_API_KEY x")).status = "error" :=
  ⟨⟨by decide, by decide, by decide, by decide⟩,
   (checkEnvFile_space_line_error "/app/.env" "NOTION_API_KEY x" "NOTION_API_KEY"
      "NOTION_API_KEY x" (by decide) (by decide) (by decide) (by decide)).1⟩

/-- The settings-file content with exactly the six required variables set. -/
def requiredOnlyEnvContent : String :=
  "NOTION_API_KEY=a\nNOTION_DISCUSSION_DATABASE_ID=b\nNOTION_DAILY_REPORT_DATABASE_ID=c\nTELEGRAM_BOT_TOKEN=d\nTELEGRAM_DISCUSSION_GROUP_ID=e\nTELEGRAM_DAILY_REPORT_GROUP_ID=f"

/-- `requiredOnlyEnvContent` extended with the two optional variables. -/
def fullEnvContent : String :=
  requiredOnlyEnvContent ++ "\nTELEGRAM_GENERAL_GROUP_ID=g\nNOTION_MEETING_DATABASE_ID=h"

/-- `fullEnvContent` with the required variable `TELEGRAM_BOT_TOKEN` removed. -/
def missingVarEnvContent : String :=
  "NOTION_API_KEY=a\nNOTION_DISCUSSION_DATABASE_ID=b\nNOTION_DAILY_REPORT_DATABASE_ID=c\nTELEGRAM_DISCUSSION_GROUP_ID=e\nTELEGRAM_DAILY_REPORT_GROUP_ID=f\nTELEGRAM_GENERAL_GROUP_ID=g\nNOTION_MEETING_DATABASE_ID=h"

/-- `fullEnvContent` with the required variable `TELEGRAM_BOT_TOKEN` empty. -/
def emptyVarEnvContent : String :=
  "NOTION_API_KEY=a\nNOTION_DISCUSSION_DATABASE_ID=b\nNOTION_DAILY_REPORT_DATABASE_ID=c\nTELEGRAM_BOT_TOKEN=\nTELEGRAM_DISCUSSION_GROUP_ID=e\nTELEGRAM_DAILY_REPORT_GROUP_ID=f\nTELEGRAM_GENERAL_GROUP_ID=g\nNOTION_MEETING_DATABASE_ID=h"

/-- C5, counterexample to the claim as stated: in `requiredOnlyEnvContent`
every required key appears with a non-empty value, yet the status is
`warning` (the optional keys are absent), not `pass`. -/
theorem checkEnvFile_required_only_not_pass :
    (∀ v ∈ REQUIRED_ENV_VARS,
       classifyVar (jsSplitChar '\n' requiredOnlyEnvContent) v = some .defined)
    ∧ (checkEnvFile "/app/.env" (some requiredOnlyEnvContent)).status = "warning" := by
  constructor
  · decide
  · decide

/-- C5 (amended): on an existing settings file whose lines are readable
without throwing, (i) if every required key is defined with a non-empty value
AND every optional key is present, the status is `pass` (the claim as stated
omits the optional-key condition: optional keys absent give `warning`);
(ii) a missing required key gives status `fail` and its name appears in the
`Missing:` detail line; (iii) a required key present with an empty value gives
status `fail`. -/
theorem checkEnvFile_spec (envPath content : String) :
    ((∀ v ∈ REQUIRED_ENV_VARS,
        classifyVar (jsSplitChar '\n' content) v = some VarClass.defined) →
     (∀ v ∈ OPTIONAL_ENV_VARS,
        (findEnvLine (jsSplitChar '\n' content) v).isSome = true) →
       (checkEnvFile envPath (some content)).status = "pass")
    ∧ ((∀ v ∈ REQUIRED_ENV_VARS, classifyVar (jsSplitChar '\n' content) v ≠ none) →
       ∀ v ∈ REQUIRED_ENV_VARS,
         classifyVar (jsSplitChar '\n' content) v = some VarClass.missing →
           (checkEnvFile envPath (some content)).status = "fail"
           ∧ ∃ M, v ∈ M
               ∧ Detail.mk "fail" ("Missing: " ++ String.intercalate ", " M)
                   ∈ ((checkEnvFile envPath (some content)).details.getD []))
    ∧ ((∀ v ∈ REQUIRED_ENV_VARS, classifyVar (jsSplitChar '\n' content) v ≠ none) →
       ∀ v ∈ REQUIRED_ENV_VARS,
         classifyVar (jsSplitChar '\n' content) v = some VarClass.empty →
           (checkEnvFile envPath (some content)).status = "fail") := by
  refine ⟨?_, ?_, ?_⟩
  · intro h1 h2
    have hnothrow : ∀ v ∈ REQUIRED_ENV_VARS, classifyVar (jsSplitChar '\n' content) v ≠ none :=
      fun v hv => by simp [h1 v hv]
    have hscan := scanRequiredVars_of_noThrow (jsSplitChar '\n' content) REQUIRED_ENV_VARS hnothrow
    have hm : REQUIRED_ENV_VARS.filter
        (fun v => classifyVar (jsSplitChar '\n' content) v = some VarClass.missing) = [] :=
      List.filter_eq_nil_iff.mpr (fun v hv => by simp [h1 v hv])
    have hem : REQUIRED_ENV_VARS.filter
        (fun v => classifyVar (jsSplitChar '\n' content) v = some VarClass.empty) = [] :=
      List.filter_eq_nil_iff.mpr (fun v hv => by simp [h1 v hv])
    have hmo : OPTIONAL_ENV_VARS.filter
        (fun v => (findEnvLine (jsSplitChar '\n' content) v).isNone) = [] := by
      refine List.filter_eq_nil_iff.mpr (fun v hv => ?_)
      have hs := h2 v hv
      simp only [Option.isSome_iff_exists] at hs
      obtain ⟨w, hw⟩ := hs
      simp [hw]
    simp [checkEnvFile, hscan, hm, hem, hmo]
  · intro hnothrow v hv hmiss
    have hscan := scanRequiredVars_of_noThrow (jsSplitChar '\n' content) REQUIRED_ENV_VARS hnothrow
    have hvM : v ∈ REQUIRED_ENV_VARS.filter
        (fun w => classifyVar (jsSplitChar '\n' content) w = some VarClass.missing) :=
      List.mem_filter.mpr ⟨hv, by simp [hmiss]⟩
    have hlen : 0 < (REQUIRED_ENV_VARS.filter
        (fun w => classifyVar (jsSplitChar '\n' content) w = some VarClass.missing)).length :=
      List.length_pos_of_mem hvM
    constructor
    · simp only [checkEnvFile, hscan]
      simp [hlen]
    · refine ⟨REQUIRED_ENV_VARS.filter
        (fun w => classifyVar (jsSplitChar '\n' content) w = some VarClass.missing), hvM, ?_⟩
      simp only [checkEnvFile, hscan]
      simp [hlen]
  · intro hnothrow v hv hempty
    have hscan := scanRequiredVars_of_noThrow (jsSplitChar '\n' content) REQUIRED_ENV_VARS hnothrow
    have hvM : v ∈ REQUIRED_ENV_VARS.filter
        (fun w => classifyVar (jsSplitChar '\n' content) w = some VarClass.empty) :=
      List.mem_filter.mpr ⟨hv, by simp [hempty]⟩
    have hlen : 0 < (REQUIRED_ENV_VARS.filter
        (fun w => classifyVar (jsSplitChar '\n' content) w = some VarClass.empty)).length :=
      List.length_pos_of_mem hvM
    simp only [checkEnvFile, hscan]
    simp [hlen]

/-- Closed witness for `checkEnvFile_spec`, discharging each part's
hypotheses at concrete settings files. -/
theorem checkEnvFile_spec_witness :
    (checkEnvFile "/app/.env" (some fullEnvContent)).status = "pass"
    ∧ (checkEnvFile "/app/.env" (some missingVarEnvContent)).status = "fail"
    ∧ (checkEnvFile "/app/.env" (some emptyVarEnvContent)).status = "fail" :=
  ⟨(checkEnvFile_spec "/app/.env" fullEnvContent).1 (by decide) (by decide),
   ((checkEnvFile_spec "/app/.env" missingVarEnvContent).2.1 (by decide)
      "TELEGRAM_BOT_TOKEN" (by decide) (by decide)).1,
   (checkEnvFile_spec "/app/.env" emptyVarEnvContent).2.2 (by decide)
      "TELEGRAM_BOT_TOKEN" (by decide) (by decide)⟩

/-! ## Log analysis check (`scripts/checks/logs.js`) -/

/-- Hit of the literal `alt` at the head of `s` after folding characters with
`f` (`id` for a case-sensitive pattern, `Char.toLower` for `/i`). -/
def caseHitAt (f : Char → Char) (s alt : List Char) : Bool :=
  decide (alt.length ≤ s.length) && ((s.take alt.length).map f == alt.map f)

/-- First occurrence of the literal `t` in `s` (under fold `f`); returns the
remainder of `s` after the occurrence. -/
def caseFindRest (f : Char → Char) (t : List Char) : List Char → Option (List Char)
  | [] => if t.isEmpty then some [] else none
  | s@(_ :: rest) =>
      if caseHitAt f s t then some (s.drop t.length) else caseFindRest f t rest

/-- Test of a token sequence `t₁.*t₂.*…` against `s`: each literal token in
order, with arbitrary gaps.  Taking the earliest occurrence of each token is
complete, so this decides exactly whether the regex matches. -/
def caseSeqTest (f : Char → Char) (s : List Char) : List (List Char) → Bool
  | [] => true
  | t :: ts =>
      match caseFindRest f t s with
      | some rest => caseSeqTest f rest ts
      | none => false

/-- JS `s.includes(sub)`. -/
def jsIncludes (s sub : String) : Bool :=
  (caseFindRest id sub.data s.data).isSome

/-- A line-level pattern of the source: an alternation of token sequences,
optionally case-insensitive. -/
structure LinePattern where
  ci : Bool
  alts : List (List String)
deriving Repr, DecidableEq

/-- Whether the pattern matches anywhere in the string (JS `pattern.test(line)`). -/
def LinePattern.test (p : LinePattern) (s : String) : Bool :=
  let f := if p.ci then Char.toLower else id
  p.alts.any fun alt => caseSeqTest f s.data (alt.map String.data)

/-- The `ERROR_PATTERNS` table of `checks/logs.js` (all `/i`). -/
def ERROR_PATTERNS : List (LinePattern × String) :=
  [(⟨true, [["Error:"]]⟩, "General Error"),
   (⟨true, [["Fatal error:"]]⟩, "Fatal Error"),
   (⟨true, [["SyntaxError:"]]⟩, "Syntax Error"),
   (⟨true, [["Cannot find module"]]⟩, "Module Not Found"),
   (⟨true, [["EACCES"], ["permission denied"]]⟩, "Permission Error"),
   (⟨true, [["ENOENT", "no such file"]]⟩, "File Not Found"),
   (⟨true, [["validation_error"]]⟩, "Validation Error"),
   (⟨true, [["object_not_found"]]⟩, "Notion Object Not Found"),
   (⟨true, [["telegram", "not found"], ["Bad Request"]]⟩, "Telegram Error"),
   (⟨true, [["dotenv", "injecting env"]]⟩, "Dotenv Warning"),
   (⟨true, [["MODULE_NOT_FOUND"]]⟩, "Module Not Found")]

/-- The `PATH_PATTERNS` table of `checks/logs.js` (the first is
case-sensitive, the second `/i` with an inner alternation). -/
def PATH_PATTERNS : List (LinePattern × String) :=
  [(⟨false, [["skills/skills/"]]⟩, "Duplicate \"skills\" in path"),
   (⟨true, [["undefined", "url"], ["undefined", "id"], ["undefined", "database"]]⟩,
     "Undefined critical value")]

/-- Does some `ERROR_PATTERNS` entry match the line? -/
def lineMatchesErrorPattern (line : String) : Bool :=
  ERROR_PATTERNS.any fun p => p.1.test line

/-- One element of the `errors` list of `parseLogFile`. -/
structure LogError where
  category : String
  timestamp : String
  message : String
deriving Repr, DecidableEq

/-- One element of an `errorsByCategory` bucket. -/
structure CategoryEntry where
  timestamp : String
  message : String
  fullLine : String
deriving Repr, DecidableEq

/-- One element of the `warnings` list of `parseLogFile`. -/
structure PathWarning where
  type : String
  message : String
  line : String
deriving Repr, DecidableEq

/-- The value `parseLogFile` resolves with (on a readable file). -/
structure LogParse where
  errors : List LogError
  warnings : List PathWarning
  errorsByCategory : List (String × List CategoryEntry)
deriving Repr, DecidableEq

/-- The timestamp extraction `line.match(/^(\d{2}:\d{2}:\d{2})/)`: the first
eight characters when they have the shape `dd:dd:dd`, else `''`. -/
def extractLineTimestamp (line : String) : String :=
  match line.data with
  | a :: b :: c :: d :: e :: f :: g :: h :: _ =>
      if a.isDigit && b.isDigit && c = ':' && d.isDigit && e.isDigit && f = ':'
          && g.isDigit && h.isDigit then ⟨[a, b, c, d, e, f, g, h]⟩ else ""
  | _ => ""

/-- The message extraction `line.match(/Error: (.+?)(?:\n|$)/)`: on a string
without newlines the lazy group stretches to the end of the line, so the
capture is everything after the first (case-sensitive) `Error: ` provided at
least one character follows; `none` when the regex does not match. -/
def extractErrorMessage (line : String) : Option String :=
  match caseFindRest id "Error: ".data line.data with
  | some rest => if rest.isEmpty then none else some ⟨rest⟩
  | none => none

/-- Insertion-ordered update of the `errorsByCategory` object: append to an
existing bucket, or add a new key at the end. -/
def upsertCategory (m : List (String × List CategoryEntry)) (cat : String)
    (e : CategoryEntry) : List (String × List CategoryEntry) :=
  match m with
  | [] => [(cat, [e])]
  | (k, es) :: rest =>
      if k = cat then (k, es ++ [e]) :: rest else (k, es) :: upsertCategory rest cat e

/-- One iteration of the `for (const line of lines)` loop of `parseLogFile`:
the first matching error pattern (`break` after a hit) contributes one error
record, and every matching path pattern contributes one warning. -/
def parseLogStep (acc : LogParse) (line : String) : LogParse :=
  let acc1 : LogParse :=
    match ERROR_PATTERNS.find? (fun p => p.1.test line) with
    | some p =>
        let timestamp := extractLineTimestamp line
        let message := (extractErrorMessage line).getD (jsTrim line)
        { acc with
          errors := acc.errors ++ [(⟨p.2, timestamp, message⟩ : LogError)]
          errorsByCategory := upsertCategory acc.errorsByCategory p.2
            ⟨timestamp, String.mk (message.data.take 200), String.mk (line.data.take 500)⟩ }
    | none => acc
  { acc1 with
    warnings := acc1.warnings ++
      (PATH_PATTERNS.filter (fun p => p.1.test line)).map
        (fun p => (⟨"path_issue", p.2, jsTrim line⟩ : PathWarning)) }

/-- `parseLogFile(logPath)` from `checks/logs.js` (lines 38-95), given the
file's content (the read succeeds). -/
def parseLogFile (content : String) : LogParse :=
  (jsSplitChar '\n' content).foldl parseLogStep ⟨[], [], []⟩

/-- `getLastNLines(logPath, n)`: `content.split('\n').slice(-n)`. -/
def getLastNLines (content : String) (n : Nat) : List String :=
  let lines := jsSplitChar '\n' content
  lines.drop (lines.length - n)

/-- The per-category detail/fix contribution of the summary loop of
`logs.run` (lines 160-191). -/
def categoryDetails (cat : String) (entries : List CategoryEntry) : List Detail :=
  if entries.length > 0 then
    let st := if entries.length > 10 then "fail"
      else if entries.length > 3 then "warning" else "pass"
    [⟨st, cat ++ ": " ++ toString entries.length ++ " occurrence(s)"⟩]
    ++ (match entries.getLast? with
        | some ex => [⟨"info", "  Latest: " ++ String.mk (ex.message.data.take 80) ++ "..."⟩]
        | none => [])
  else []

/-- The per-category fix contribution of the same loop. -/
def categoryFixes (cat : String) (entries : List CategoryEntry) : List String :=
  if entries.length > 0 then
    (if cat = "Module Not Found" ∧ entries.length > 0 then
       ["Run npm install in affected skill directories"] else [])
    ++ (if cat = "Syntax Error" then ["Fix JavaScript syntax errors in affected files"] else [])
    ++ (if cat = "Notion Object Not Found" then
          ["Check Notion database IDs and integration permissions"] else [])
    ++ (if cat = "Telegram Error" then ["Check TELEGRAM_BOT_TOKEN and group chat IDs"] else [])
  else []

/-- The result object of the logs check. -/
structure LogsResult where
  status : String
  message : String
  details : List Detail
  fix : Option (List String)
deriving Repr, DecidableEq

/-- `run(clawdRoot, options)` of `scripts/checks/logs.js` (lines 121-225).
The file system is passed in as `latestLog`: `none` when `getLatestLogFile`
finds no dated log file, else the basename and content of the latest one
(both reads of the file see the same content). -/
def logsRun (latestLog : Option (String × String)) : LogsResult :=
  match latestLog with
  | none =>
      { status := "warning"
        message := "No log files found"
        details := [⟨"warning", "Log directory not found or empty: /tmp/clawdbot"⟩]
        fix := some ["Ensure Clawdbot has run at least once", "Check log directory permissions"] }
  | some (name, content) =>
      let parsed := parseLogFile content
      let totalErrors := parsed.errors.length
      let totalWarnings := parsed.warnings.length
      let recentErrorCount :=
        ((getLastNLines content 100).filter lineMatchesErrorPattern).length
      let details : List Detail :=
        [⟨"pass", "Analyzing log: " ++ name⟩,
         ⟨"info", "Found " ++ toString totalErrors ++ " errors, "
           ++ toString totalWarnings ++ " warnings"⟩]
        ++ (parsed.errorsByCategory.flatMap fun kv => categoryDetails kv.1 kv.2)
        ++ (parsed.warnings.map fun w => ⟨"warning", "Path issue: " ++ w.message⟩)
        ++ (if recentErrorCount > 20 then
              [⟨"fail", "High error rate: " ++ toString recentErrorCount ++ "% in recent logs"⟩]
            else [])
      let fixes : List String :=
        (parsed.errorsByCategory.flatMap fun kv => categoryFixes kv.1 kv.2)
        ++ (parsed.warnings.filterMap fun w =>
             if w.type = "path_issue" ∧ jsIncludes w.message "Duplicate" then
               some "Fix duplicate \"skills\" directory in skill paths"
             else none)
      let status :=
        if totalErrors > 50 ∨ recentErrorCount > 20 then "fail"
        else if totalErrors > 10 ∨ recentErrorCount > 5 then "warning"
        else "pass"
      { status := status
        message := "Log analysis: " ++ toString totalErrors ++ " errors found, "
          ++ toString recentErrorCount ++ "% recent error rate"
        details := details
        fix := if fixes.length > 0 then some fixes else none }

/-- Each processed line contributes to `errors` exactly when some error
pattern matches it. -/
theorem foldl_parseLogStep_errors_length (lines : List String) (acc : LogParse) :
    (lines.foldl parseLogStep acc).errors.length
      = acc.errors.length + lines.countP lineMatchesErrorPattern := by
  induction lines generalizing acc with
  | nil => simp
  | cons l ls ih =>
      rw [List.foldl_cons, ih]
      have hstep : (parseLogStep acc l).errors.length
          = acc.errors.length + (if lineMatchesErrorPattern l then 1 else 0) := by
        unfold parseLogStep
        cases hf : ERROR_PATTERNS.find? (fun p => p.1.test l) with
        | none =>
            have hm : lineMatchesErrorPattern l = false := by
              simp only [lineMatchesErrorPattern, List.any_eq_true, not_exists]
              simp only [List.find?_eq_none] at hf
              simp only [List.any_eq_false]
              intro p hp
              exact Bool.not_eq_true _ ▸ hf p hp
            simp [hf, hm]
        | some p =>
            have hm : lineMatchesErrorPattern l = true := by
              have hp := List.find?_some hf
              have hmem := List.mem_of_find?_eq_some hf
              simp only [lineMatchesErrorPattern, List.any_eq_true]
              exact ⟨p, hmem, hp⟩
            simp [hf, hm]
      rw [hstep, List.countP_cons]
      cases h : lineMatchesErrorPattern l <;> simp [h] <;> omega

/-- `parseLogFile` finds as many error lines as match some error pattern. -/
theorem parseLogFile_errors_length (content : String) :
    (parseLogFile content).errors.length
      = (jsSplitChar '\n' content).countP lineMatchesErrorPattern := by
  have h := foldl_parseLogStep_errors_length (jsSplitChar '\n' content) ⟨[], [], []⟩
  simpa [parseLogFile] using h

/-- C4: the logs check passes when zero lines of the latest log match any
error pattern; it fails when more than 50 lines match in total or more than
20 of the last 100 lines match (that raw window count is also printed
directly as the `%` figure in the message); a missing log file yields
`warning`, not `fail`. -/
theorem logsRun_spec (name content : String) :
    ((logsRun none).status = "warning")
    ∧ (((jsSplitChar '\n' content).countP lineMatchesErrorPattern = 0) →
         (logsRun (some (name, content))).status = "pass")
    ∧ (((jsSplitChar '\n' content).countP lineMatchesErrorPattern > 50
        ∨ (getLastNLines content 100).countP lineMatchesErrorPattern > 20) →
         (logsRun (some (name, content))).status = "fail")
    ∧ ((logsRun (some (name, content))).message
        = "Log analysis: "
          ++ toString ((jsSplitChar '\n' content).countP lineMatchesErrorPattern)
          ++ " errors found, "
          ++ toString ((getLastNLines content 100).countP lineMatchesErrorPattern)
          ++ "% recent error rate") := by
  have hT := parseLogFile_errors_length content
  have hRfilter : ((getLastNLines content 100).filter lineMatchesErrorPattern).length
      = (getLastNLines content 100).countP lineMatchesErrorPattern :=
    (List.countP_eq_length_filter _ _).symm
  refine ⟨rfl, ?_, ?_, ?_⟩
  · intro h0
    have hsub : (getLastNLines content 100).Sublist (jsSplitChar '\n' content) := by
      simp only [getLastNLines]
      exact List.drop_sublist _ _
    have hR : (getLastNLines content 100).countP lineMatchesErrorPattern = 0 :=
      Nat.le_zero.mp (h0 ▸ hsub.countP_le lineMatchesErrorPattern)
    simp [logsRun, hT, hRfilter, hR, h0]
  · intro hcond
    rcases hcond with hbig | hrec
    · have : (jsSplitChar '\n' content).countP lineMatchesErrorPattern > 50 := hbig
      simp only [logsRun]
      rw [hT, hRfilter]
      simp [this]
    · simp only [logsRun]
      rw [hT, hRfilter]
      simp [hrec]
  · simp only [logsRun]
    rw [hT, hRfilter]

/-- A synthetic log with 21 matching error lines. -/
def manyErrorsLog : String :=
  String.intercalate "\n" (List.replicate 21 "Error: boom")

/-- Closed witness for `logsRun_spec`: a clean synthetic log passes, a log
whose last 100 lines hold 21 matching lines fails. -/
theorem logsRun_spec_witness :
    (logsRun (some ("clawdbot-2025-01-01.log", "all quiet\nno problems"))).status = "pass"
    ∧ (logsRun (some ("clawdbot-2025-01-01.log", manyErrorsLog))).status = "fail" :=
  ⟨(logsRun_spec "clawdbot-2025-01-01.log" "all quiet\nno problems").2.1 (by decide),
   (logsRun_spec "clawdbot-2025-01-01.log" manyErrorsLog).2.2.1 (Or.inr (by decide))⟩

/-! ## Script parse check (`scripts/checks/syntax.js`); the source names its
per-file helper `checkFileSyntax`, embedded here as `checkFileCall`, and its
runner `run`, embedded as `scriptsCheckRun`.  The module requires only `fs`,
`path` and `existsSync` and never imports `spawn` (compare `checks/git.js`
line 6), so the `spawn('node', ['--check', filePath], …)` call on its line 29
throws `ReferenceError: spawn is not defined` inside the promise executor,
and the promise `checkFileSyntax` returns always rejects. -/

/-- JS `s.endsWith(suf)`. -/
def jsEndsWith (s suf : String) : Bool :=
  suf.data.reverse.isPrefixOf s.data.reverse

/-- The maximal trailing digit run (`error.match(/(\d+)$/)`), when nonempty. -/
def trailingDigits (s : String) : Option String :=
  let ds := (s.data.reverse.takeWhile Char.isDigit).reverse
  if ds.length ≥ 1 then some (String.mk ds) else none

/-- The sub-result `checkFileSyntax` would resolve with. -/
structure FileCheckResult where
  status : String
  message : String
  error : Option String := none
deriving Repr, DecidableEq

/-- The `ReferenceError` raised by the unimported `spawn`. -/
def spawnReferenceError : JsError :=
  { message := "spawn is not defined"
    stack := "ReferenceError: spawn is not defined" }

/-- `checkFileSyntax(filePath)` of `checks/syntax.js` (lines 27-59): the body
immediately calls the never-imported `spawn`, so the executor throws and the
returned promise always rejects with the `ReferenceError`; none of the
`close`/`error` handling below that call is reachable. -/
def checkFileCall (_filePath : String) : Except JsError FileCheckResult :=
  .error spawnReferenceError

/-- The `CRITICAL_FILES` list of `checks/syntax.js`. -/
def CRITICAL_FILES : List String :=
  ["scripts/notion-heartbeat.js",
   "skills/notion-persistence-universal/scripts/save-content.js",
   "skills/telegram-notification/scripts/notify-group.js",
   "skills/event-coordinator/scripts/coordinate.js"]

/-- The file system and glob environment of the script parse check:
`globResult` is the combined outcome of `require('glob')` and the awaited
`glob('skills/*/scripts/*.js', …)` call (an `.error` is swallowed by the
surrounding `catch (globError)`). -/
structure ScriptsEnv where
  fileExists : String → Bool
  globResult : Except String (List String)

/-- The mutable counters and lists of `run`. -/
structure ScriptScanAcc where
  checked : Nat := 0
  passed : Nat := 0
  failed : Nat := 0
  details : List Detail := []
  errors : List String := []
  fixes : List String := []
deriving Repr, DecidableEq

/-- The loop over `CRITICAL_FILES` (syntax.js lines 86-114): a missing file
only adds a warning detail; an existing file increments `checked` and then
awaits `checkFileSyntax`, whose rejection aborts the whole `run` promise
(the loop sits outside any `try`).  The `.ok` arm transcribes the source's
pass/fail bookkeeping, although `checkFileCall` never takes it. -/
def criticalFilesLoop (clawdRoot : String) (fileExists : String → Bool)
    (acc : ScriptScanAcc) : List String → Except JsError ScriptScanAcc
  | [] => .ok acc
  | rel :: rest =>
      let fullPath := clawdRoot ++ "/" ++ rel
      if fileExists fullPath = false then
        criticalFilesLoop clawdRoot fileExists
          { acc with details := acc.details ++ [⟨"warning", rel ++ " not found"⟩] } rest
      else
        let acc1 := { acc with checked := acc.checked + 1 }
        match checkFileCall fullPath with
        | .error e => .error e
        | .ok result =>
            if result.status = "pass" then
              criticalFilesLoop clawdRoot fileExists
                { acc1 with
                  passed := acc1.passed + 1
                  details := acc1.details ++ [⟨"pass", rel ++ ": OK"⟩] } rest
            else
              criticalFilesLoop clawdRoot fileExists
                { acc1 with
                  failed := acc1.failed + 1
                  details := acc1.details ++ [⟨"fail", result.message⟩]
                  errors := acc1.errors ++ [result.message]
                  fixes := acc1.fixes ++ ["Fix syntax error in " ++ rel]
                    ++ (match result.error with
                        | some err =>
                            match trailingDigits err with
                            | some ds => ["Check line " ++ ds ++ " in " ++ rel]
                            | none => []
                        | none => []) } rest

/-- The loop over the additional glob files (syntax.js lines 129-139), which
runs inside the `try`: a rejected `checkFileSyntax` is caught by
`catch (globError)`, aborting the loop while keeping the mutations made so
far (none precede the await within an iteration).  The `.ok` arm again
transcribes unreachable bookkeeping. -/
def additionalFilesLoop (acc : ScriptScanAcc) : List String → ScriptScanAcc
  | [] => acc
  | file :: rest =>
      match checkFileCall file with
      | .error _ => acc
      | .ok result =>
          if result.status = "pass" then
            additionalFilesLoop
              { acc with checked := acc.checked + 1, passed := acc.passed + 1 } rest
          else
            additionalFilesLoop
              { acc with
                checked := acc.checked + 1
                failed := acc.failed + 1
                details := acc.details ++ [⟨"fail", result.message⟩]
                errors := acc.errors ++ [result.message] } rest

/-- The result object of the script parse check's runner (when its promise
resolves). -/
structure ScriptsRunResult where
  status : String
  message : String
  details : List Detail
  error : Option String
  fix : List String
deriving Repr, DecidableEq

/-- `run(clawdRoot)` of `scripts/checks/syntax.js` (lines 77-159), as the
outcome of the promise it returns: it rejects with the `ReferenceError` as
soon as the critical-files loop reaches an existing file. -/
def scriptsCheckRun (clawdRoot : String) (env : ScriptsEnv) :
    Except JsError ScriptsRunResult :=
  match criticalFilesLoop clawdRoot env.fileExists {} CRITICAL_FILES with
  | .error e => .error e
  | .ok acc1 =>
      let acc2 :=
        match env.globResult with
        | .error _ => acc1
        | .ok files =>
            additionalFilesLoop acc1
              ((files.filter (fun f => ¬ CRITICAL_FILES.any (fun crit => jsEndsWith f crit))).take 20)
      let status :=
        if acc2.failed > 0 then "fail"
        else if acc2.checked = 0 then "warning"
        else "pass"
      .ok
        { status := status
          message := "Syntax check: " ++ toString acc2.passed ++ "/" ++ toString acc2.checked
            ++ " files passed"
          details := acc2.details
          error := if acc2.errors.length > 0 then some (String.intercalate "; " acc2.errors)
            else none
          fix := acc2.fixes }

/-- A resolved run result as the partial-result object the runner merges
(each property present); a rejection passes through to the runner's catch. -/
def scriptsRunPartial : Except JsError ScriptsRunResult → Except JsError PartialResult
  | .error e => .error e
  | .ok r =>
      .ok { status := some r.status, message := some r.message,
            details := some r.details, error := r.error, fix := some r.fix }

/-- The critical-files loop rejects with the `ReferenceError` as soon as some
critical file exists. -/
theorem criticalFilesLoop_error (clawdRoot : String) (fe : String → Bool)
    (files : List String) (acc : ScriptScanAcc)
    (h : ∃ rel ∈ files, fe (clawdRoot ++ "/" ++ rel) = true) :
    criticalFilesLoop clawdRoot fe acc files = .error spawnReferenceError := by
  induction files generalizing acc with
  | nil => simp at h
  | cons rel rest ih =>
      obtain ⟨w, hw, hex⟩ := h
      by_cases hr : fe (clawdRoot ++ "/" ++ rel) = false
      · rcases List.mem_cons.mp hw with rfl | hwrest
        · rw [hex] at hr
          simp at hr
        · simp only [criticalFilesLoop, hr, if_pos]
          exact ih _ ⟨w, hwrest, hex⟩
      · simp [criticalFilesLoop, hr, checkFileCall]

/-- When every critical file is missing, the loop resolves, appending one
`not found` warning detail per file and touching nothing else. -/
theorem criticalFilesLoop_ok (clawdRoot : String) (fe : String → Bool)
    (files : List String) (acc : ScriptScanAcc)
    (h : ∀ rel ∈ files, fe (clawdRoot ++ "/" ++ rel) = false) :
    criticalFilesLoop clawdRoot fe acc files
      = .ok { acc with
          details := acc.details
            ++ files.map (fun rel => ⟨"warning", rel ++ " not found"⟩) } := by
  induction files generalizing acc with
  | nil => simp [criticalFilesLoop]
  | cons rel rest ih =>
      have hr := h rel (by simp)
      rw [criticalFilesLoop, if_pos hr,
        ih _ (fun w hw => h w (by simp [hw]))]
      simp

/-- The additional-files loop never changes the accumulator: its first
iteration already rejects and the rejection is caught. -/
theorem additionalFilesLoop_id (acc : ScriptScanAcc) (files : List String) :
    additionalFilesLoop acc files = acc := by
  cases files <;> simp [additionalFilesLoop, checkFileCall]

/-- C6 (the code, not the claim, is wrong): `checks/syntax.js` never imports
`spawn`, so its per-file check always rejects with `ReferenceError: spawn is
not defined`.  Whenever some critical file exists — in particular an existing
unparsable one — `run` rejects and the runner records status `error` with
that message, never the claimed `fail`; when no critical file exists, `run`
resolves with status `warning`, `0/0 files passed`, and one `not found`
warning detail per listed file.  A resolved run always has status `warning`:
the shipped check can never report `fail` (nor `pass`). -/
theorem scriptsRun_spawn_reference_error (clawdRoot : String) (env : ScriptsEnv)
    (duration : Nat) :
    ((∃ rel ∈ CRITICAL_FILES, env.fileExists (clawdRoot ++ "/" ++ rel) = true) →
       scriptsCheckRun clawdRoot env = .error spawnReferenceError
       ∧ (runCheck "Syntax Check" duration
           (scriptsRunPartial (scriptsCheckRun clawdRoot env))).status = "error"
       ∧ (runCheck "Syntax Check" duration
           (scriptsRunPartial (scriptsCheckRun clawdRoot env))).error
           = some "spawn is not defined")
    ∧ ((∀ rel ∈ CRITICAL_FILES, env.fileExists (clawdRoot ++ "/" ++ rel) = false) →
       scriptsCheckRun clawdRoot env
         = .ok { status := "warning"
                 message := "Syntax check: 0/0 files passed"
                 details := CRITICAL_FILES.map (fun rel => ⟨"warning", rel ++ " not found"⟩)
                 error := none
                 fix := [] })
    ∧ (∀ r, scriptsCheckRun clawdRoot env = .ok r → r.status = "warning") := by
  have h2 : (∀ rel ∈ CRITICAL_FILES, env.fileExists (clawdRoot ++ "/" ++ rel) = false) →
      scriptsCheckRun clawdRoot env
        = .ok { status := "warning"
                message := "Syntax check: 0/0 files passed"
                details := CRITICAL_FILES.map (fun rel => ⟨"warning", rel ++ " not found"⟩)
                error := none
                fix := [] } := by
    intro hall
    have hok := criticalFilesLoop_ok clawdRoot env.fileExists CRITICAL_FILES {} hall
    cases hg : env.globResult with
    | error e =>
        simp only [scriptsCheckRun, hok, hg, additionalFilesLoop_id]
        simp [additionalFilesLoop_id]
        decide
    | ok files =>
        simp only [scriptsCheckRun, hok, hg, additionalFilesLoop_id]
        simp [additionalFilesLoop_id]
        decide
  refine ⟨?_, h2, ?_⟩
  · intro hex
    have herr := criticalFilesLoop_error clawdRoot env.fileExists CRITICAL_FILES {} hex
    refine ⟨by simp [scriptsCheckRun, herr], ?_, ?_⟩ <;>
      simp [scriptsCheckRun, herr, scriptsRunPartial, runCheck, spawnReferenceError]
  · intro r hr
    by_cases hex : ∃ rel ∈ CRITICAL_FILES, env.fileExists (clawdRoot ++ "/" ++ rel) = true
    · have herr := criticalFilesLoop_error clawdRoot env.fileExists CRITICAL_FILES {} hex
      rw [scriptsCheckRun, herr] at hr
      simp at hr
    · have hall : ∀ rel ∈ CRITICAL_FILES,
          env.fileExists (clawdRoot ++ "/" ++ rel) = false := by
        intro rel hrel
        by_contra hne
        exact hex ⟨rel, hrel, by simpa using hne⟩
      rw [h2 hall] at hr
      simp only [Except.ok.injEq] at hr
      rw [← hr]

/-- An environment where the heartbeat script exists. -/
def scriptsEnvExisting : ScriptsEnv :=
  { fileExists := fun p => decide (p = "/c/scripts/notion-heartbeat.js")
    globResult := .error "Cannot find module" }

/-- An environment where no critical file exists. -/
def scriptsEnvNoFiles : ScriptsEnv :=
  { fileExists := fun _ => false
    globResult := .error "Cannot find module" }

/-- Closed witness for `scriptsRun_spawn_reference_error` at concrete
environments. -/
theorem scriptsRun_spawn_reference_error_witness :
    (runCheck "Syntax Check" 3
        (scriptsRunPartial (scriptsCheckRun "/c" scriptsEnvExisting))).status = "error"
    ∧ scriptsCheckRun "/c" scriptsEnvNoFiles
        = .ok { status := "warning"
                message := "Syntax check: 0/0 files passed"
                details := CRITICAL_FILES.map (fun rel => ⟨"warning", rel ++ " not found"⟩)
                error := none
                fix := [] } :=
  ⟨((scriptsRun_spawn_reference_error "/c" scriptsEnvExisting 3).1
      ⟨"scripts/notion-heartbeat.js", by decide, by decide⟩).2.1,
   (scriptsRun_spawn_reference_error "/c" scriptsEnvNoFiles 3).2.1 (by decide)⟩

/-! ## Git check (`scripts/checks/git.js`) -/

/-- A quote character, `["\']`. -/
def isQuote (c : Char) : Bool :=
  c = '"' || c = '\''

/-- The token class `[a-zA-Z0-9_-]`. -/
def isTokenChar (c : Char) : Bool :=
  c.isAlphanum || c = '_' || c = '-'

/-- The base64 class `[A-Za-z0-9+/]`. -/
def isBase64Char (c : Char) : Bool :=
  c.isAlphanum || c = '+' || c = '/'

/-- Case-insensitive literal at the head of `s`. -/
def ciLitAt (lit : String) (s : List Char) : Bool :=
  caseHitAt Char.toLower s lit.data

/-- `/secret_[a-zA-Z0-9]{32,}/` anchored at the head of `s`: number of
characters matched. -/
def notionAt (s : List Char) : Option Nat :=
  if "secret_".data.isPrefixOf s then
    let run := (s.drop 7).takeWhile Char.isAlphanum
    if run.length ≥ 32 then some (7 + run.length) else none
  else none

/-- `/\d{8,}:[A-Za-z0-9_-]{35}/` anchored at the head of `s`. -/
def telegramAt (s : List Char) : Option Nat :=
  let ds := s.takeWhile Char.isDigit
  if ds.length ≥ 8 then
    match s.drop ds.length with
    | ':' :: rest =>
        let run := rest.takeWhile isTokenChar
        if run.length ≥ 35 then some (ds.length + 1 + 35) else none
    | _ => none
  else none

/-- The shared tail `["\']?\s*[:=]\s*["\']?[a-zA-Z0-9_-]{20,}` of the API-key
and token patterns, anchored at the head of `s` (the optional quotes and the
whitespace runs are deterministic here because quotes and `[:=]` are disjoint
from the neighbouring classes). -/
def keyTailAt (s : List Char) : Option Nat :=
  let q1 : Nat := match s with
    | c :: _ => if isQuote c then 1 else 0
    | [] => 0
  let s1 := s.drop q1
  let ws1 := (s1.takeWhile jsIsWhitespace).length
  match s1.drop ws1 with
  | c :: s3 =>
      if c = ':' || c = '=' then
        let ws2 := (s3.takeWhile jsIsWhitespace).length
        let s4 := s3.drop ws2
        let q2 : Nat := match s4 with
          | d :: _ => if isQuote d then 1 else 0
          | [] => 0
        let run := (s4.drop q2).takeWhile isTokenChar
        if run.length ≥ 20 then some (q1 + ws1 + 1 + ws2 + q2 + run.length) else none
      else none
  | [] => none

/-- `/api[_-]?key["\']?\s*[:=]\s*["\']?[a-zA-Z0-9_-]{20,}/i` anchored at the
head of `s`. -/
def apiKeyAt (s : List Char) : Option Nat :=
  if ciLitAt "api" s then
    let s1 := s.drop 3
    let withSep : Option Nat :=
      match s1 with
      | c :: rest =>
          if (c = '_' || c = '-') && ciLitAt "key" rest then
            (keyTailAt (rest.drop 3)).map (fun n => 3 + 1 + 3 + n)
          else none
      | [] => none
    match withSep with
    | some n => some n
    | none =>
        if ciLitAt "key" s1 then (keyTailAt (s1.drop 3)).map (fun n => 3 + 3 + n)
        else none
  else none

/-- `/password["\']?\s*[:=]\s*["\']?[^\s"']+["\']?/i` anchored at the head of
`s`. -/
def passwordAt (s : List Char) : Option Nat :=
  if ciLitAt "password" s then
    let s1 := s.drop 8
    let q1 : Nat := match s1 with
      | c :: _ => if isQuote c then 1 else 0
      | [] => 0
    let s2 := s1.drop q1
    let ws1 := (s2.takeWhile jsIsWhitespace).length
    match s2.drop ws1 with
    | c :: s3 =>
        if c = ':' || c = '=' then
          let ws2 := (s3.takeWhile jsIsWhitespace).length
          let s4 := s3.drop ws2
          let q2 : Nat := match s4 with
            | d :: _ => if isQuote d then 1 else 0
            | [] => 0
          let run := (s4.drop q2).takeWhile (fun d => !(jsIsWhitespace d || isQuote d))
          if run.length ≥ 1 then
            let q3 : Nat := match (s4.drop q2).drop run.length with
              | d :: _ => if isQuote d then 1 else 0
              | [] => 0
            some (8 + q1 + ws1 + 1 + ws2 + q2 + run.length + q3)
          else none
        else none
    | [] => none
  else none

/-- `/token["\']?\s*[:=]\s*["\']?[a-zA-Z0-9_-]{20,}/i` anchored at the head
of `s`. -/
def tokenAt (s : List Char) : Option Nat :=
  if ciLitAt "token" s then (keyTailAt (s.drop 5)).map (fun n => 5 + n) else none

/-- `/bearer\s+[a-zA-Z0-9_-]{20,}/i` anchored at the head of `s`. -/
def bearerAt (s : List Char) : Option Nat :=
  if ciLitAt "bearer" s then
    let s1 := s.drop 6
    let ws := (s1.takeWhile jsIsWhitespace).length
    if ws ≥ 1 then
      let run := (s1.drop ws).takeWhile isTokenChar
      if run.length ≥ 20 then some (6 + ws + run.length) else none
    else none
  else none

/-- `/["\'][A-Za-z0-9+/]{40,}={0,2}["\']/` anchored at the head of `s`. -/
def base64At (s : List Char) : Option Nat :=
  match s with
  | c :: rest =>
      if isQuote c then
        let run := rest.takeWhile isBase64Char
        if run.length ≥ 40 then
          let eq := ((rest.drop run.length).takeWhile (fun d => d = '=')).length
          if eq ≤ 2 then
            match rest.drop (run.length + eq) with
            | d :: _ => if isQuote d then some (1 + run.length + eq + 1) else none
            | [] => none
          else none
        else none
      else none
  | [] => none

/-- Leftmost match of an anchored matcher over a string: the matched text
(JS `content.match(pattern)?.[0]`). -/
def patternMatchText (m : List Char → Option Nat) : List Char → Option String
  | [] => (m []).map (fun _ => "")
  | s@(_ :: rest) =>
      match m s with
      | some n => some (String.mk (s.take n))
      | none => patternMatchText m rest

/-- The `SECRET_PATTERNS` table of `checks/git.js` (lines 41-49), each regex
rendered as its anchored matcher. -/
def SECRET_PATTERNS : List (String × (List Char → Option Nat)) :=
  [("Notion API Token", notionAt),
   ("Telegram Bot Token", telegramAt),
   ("API Key", apiKeyAt),
   ("Password", passwordAt),
   ("Token", tokenAt),
   ("Bearer Token", bearerAt),
   ("Base64 Secret", base64At)]

/-- One element of the findings list of `checkFileForSecrets`. -/
structure SecretFinding where
  type : String
  matched : String
deriving Repr, DecidableEq

/-- The `safePaths` exclusion list of `checkFileForSecrets`. -/
def safePaths : List String :=
  [".env.example", "sample.env", ".env.template", "test/fixtures"]

/-- `checkFileForSecrets(content, filePath)` of `checks/git.js` (lines 54-74):
collects one finding per matching secret pattern (matched text capped at 30
characters), then discards everything when the path contains a known-safe
segment. -/
def checkFileForSecrets (content filePath : String) : List SecretFinding :=
  let findings := SECRET_PATTERNS.filterMap fun p =>
    match patternMatchText p.2 content.data with
    | some m => some (⟨p.1, String.mk (m.data.take 30) ++ "..."⟩ : SecretFinding)
    | none => none
  if safePaths.any (fun safe => jsIncludes filePath safe) then [] else findings

/-- The `/\.(js|ts|json|md|env|txt|yml|yaml)$/` text-file test. -/
def textFileRx (f : String) : Bool :=
  [".js", ".ts", ".json", ".md", ".env", ".txt", ".yml", ".yaml"].any
    fun ext => jsEndsWith f ext

/-- `[...new Set([...a, ...b])]`: the union keeping first occurrences. -/
def jsSetUnion (a b : List String) : List String :=
  (a ++ b).foldl (fun acc f => if acc.contains f then acc else acc ++ [f]) []

/-- The git subprocess environment of the VCS check: each `gitExec` call's
resolution (`.ok` the trimmed stdout) or rejection (`.error` the message). -/
structure GitEnv where
  gitDirExists : Bool
  statusPorcelain : Except String String
  diffNameOnly : Except String String
  diffCachedNameOnly : Except String String
  diffOf : String → Except String String
  logOneline : Except String String
  commitFiles : String → Except String String
  showFile : String → String → Except String String
  branchVv : Except String String

/-- The deduplicated changed-or-staged file list of
`checkUncommittedForSecrets`; empty when either `git diff --name-only` call
rejected (the outer catch). -/
def uncommittedCandidates (env : GitEnv) : List String :=
  match env.diffNameOnly, env.diffCachedNameOnly with
  | .ok changed, .ok staged =>
      jsSetUnion ((jsSplitChar '\n' changed).filter (fun f => f ≠ ""))
        ((jsSplitChar '\n' staged).filter (fun f => f ≠ ""))
  | _, _ => []

/-- `checkUncommittedForSecrets(cwd)` of `checks/git.js` (lines 79-120): scans
the diff text of each changed or staged text-like file; a single file's diff
failure is swallowed, and a failing name-only diff empties the whole result. -/
def checkUncommittedForSecrets (env : GitEnv) : List (String × SecretFinding) :=
  (uncommittedCandidates env).flatMap fun file =>
    if textFileRx file then
      match env.diffOf file with
      | .ok diff => (checkFileForSecrets diff file).map (fun fd => (file, fd))
      | .error _ => []
    else []

/-- `checkRecentCommitsForSecrets(cwd)` of `checks/git.js` (lines 125-172):
scans the content of each text-like file of the last five commits; per-commit
and per-file failures are swallowed. -/
def checkRecentCommitsForSecrets (env : GitEnv) : List (String × String × SecretFinding) :=
  match env.logOneline with
  | .error _ => []
  | .ok out =>
      ((jsSplitChar '\n' out).filter (fun l => l ≠ "")).flatMap fun commit =>
        let commitHash := ((jsSplitChar ' ' commit).headD "")
        match env.commitFiles commitHash with
        | .error _ => []
        | .ok filesOut =>
            ((jsSplitChar '\n' filesOut).filter (fun f => f ≠ "")).flatMap fun file =>
              if textFileRx file then
                match env.showFile commitHash file with
                | .ok content =>
                    (checkFileForSecrets content file).map (fun fd => (commitHash, file, fd))
                | .error _ => []
              else []

/-- The result object of the VCS check. -/
structure GitRunResult where
  status : String
  message : String
  details : List Detail
  fix : Option (List String)
deriving Repr, DecidableEq

/-- `run(clawdRoot, options)` of `scripts/checks/git.js` (lines 177-302).  The
two secret scanners resolve (they catch internally), so their surrounding
`catch` blocks never fire in the model. -/
def gitRun (env : GitEnv) : GitRunResult :=
  if env.gitDirExists = false then
    { status := "warning"
      message := "Not a git repository"
      details := [⟨"warning", ".git directory not found"⟩]
      fix := some ["Initialize git repo: git init"] }
  else
    let statusDetails : List Detail :=
      match env.statusPorcelain with
      | .ok out =>
          if out ≠ "" then
            let changedFiles := (jsSplitChar '\n' out).filter (fun f => f ≠ "")
            let envFiles := changedFiles.filter
              (fun f => jsIncludes f ".env" && !(jsIncludes f ".env.example"))
            [⟨"info", toString changedFiles.length ++ " uncommitted file(s)"⟩]
            ++ (if envFiles.length > 0 then
                  [⟨"warning", toString envFiles.length ++ " .env file(s) in changes"⟩]
                else [])
          else [⟨"pass", "Working directory clean"⟩]
      | .error e => [⟨"warning", "Could not check git status: " ++ e⟩]
    let uncommitted := checkUncommittedForSecrets env
    let secretDetails1 : List Detail :=
      if uncommitted.length > 0 then
        [⟨"fail", "Found " ++ toString uncommitted.length
          ++ " potential secret(s) in uncommitted changes"⟩]
        ++ (uncommitted.take 5).map
            (fun sf => ⟨"fail", "  " ++ sf.1 ++ ": " ++ sf.2.type ++ " detected"⟩)
      else []
    let fixes1 : List String :=
      if uncommitted.length > 0 then
        ["Remove secrets from uncommitted changes before committing",
         "Use environment variables for sensitive data"]
      else []
    let commitSecrets := checkRecentCommitsForSecrets env
    let secretDetails2 : List Detail :=
      if commitSecrets.length > 0 then
        [⟨"fail", "Found " ++ toString commitSecrets.length
          ++ " potential secret(s) in recent commits"⟩]
        ++ (commitSecrets.take 3).map
            (fun t => ⟨"fail", "  Commit " ++ t.1 ++ ": " ++ t.2.1 ++ " contains " ++ t.2.2.type⟩)
      else []
    let fixes2 : List String :=
      if commitSecrets.length > 0 then
        ["Remove secrets from git history using git-filter-repo or BFG Repo-Cleaner",
         "Rotate exposed secrets immediately"]
      else []
    let branchDetails : List Detail :=
      match env.branchVv with
      | .ok branches =>
          let pushNeeded := (jsSplitChar '\n' branches).filter (fun line =>
            jsIncludes line "*" && jsIncludes line "[" && !(jsIncludes line "[behind"))
          if pushNeeded.length > 0 then [⟨"info", "Unpushed commits detected"⟩] else []
      | .error _ => []
    let status :=
      if uncommitted.length > 0 ∨ commitSecrets.length > 0 then "fail" else "pass"
    let fixes := fixes1 ++ fixes2
    { status := status
      message := "Git status check completed"
      details := [⟨"pass", "Git repository detected"⟩] ++ statusDetails
        ++ secretDetails1 ++ secretDetails2 ++ branchDetails
      fix := if fixes.length > 0 then some fixes else none }

/-- A bearer-token match in an unsafe path's content yields a nonempty
findings list. -/
theorem checkFileForSecrets_bearer_ne_nil (content filePath : String)
    (hb : (patternMatchText bearerAt content.data).isSome = true)
    (hsafe : safePaths.any (fun safe => jsIncludes filePath safe) = false) :
    checkFileForSecrets content filePath ≠ [] := by
  obtain ⟨m, hm⟩ := Option.isSome_iff_exists.mp hb
  unfold checkFileForSecrets
  rw [hsafe]
  simp only [Bool.false_eq_true, if_false]
  refine List.ne_nil_of_mem (a := (⟨"Bearer Token", String.mk (m.data.take 30) ++ "..."⟩ :
    SecretFinding)) ?_
  refine List.mem_filterMap.mpr ⟨("Bearer Token", bearerAt), by simp [SECRET_PATTERNS], ?_⟩
  simp [hm]

/-- A changed or staged text-like file whose diff produces findings makes the
uncommitted-secrets list nonempty. -/
theorem checkUncommitted_ne_nil (env : GitEnv) (file diff : String)
    (hmem : file ∈ uncommittedCandidates env)
    (htext : textFileRx file = true)
    (hdiff : env.diffOf file = .ok diff)
    (hfind : checkFileForSecrets diff file ≠ []) :
    checkUncommittedForSecrets env ≠ [] := by
  obtain ⟨fd, hfd⟩ := List.exists_mem_of_ne_nil _ hfind
  refine List.ne_nil_of_mem (a := (file, fd)) ?_
  unfold checkUncommittedForSecrets
  refine List.mem_flatMap.mpr ⟨file, hmem, ?_⟩
  rw [htext, if_pos rfl, hdiff]
  exact List.mem_map.mpr ⟨fd, hfd, rfl⟩

/-- C7 (amended): in a git repository, a bearer-token match in the diff of a
changed or staged text-like file on an unsafe path makes the overall status
`fail`, with a remediation suggestion about removing the secrets from the
uncommitted changes (the secret-rotation suggestion is appended only when
secrets are found in the recent commits); with empty `git status` output and
no secrets found anywhere, the status is `pass` with a `Working directory
clean` detail. -/
theorem gitRun_spec (env : GitEnv) :
    ((env.gitDirExists = true) →
     ∀ file diff, file ∈ uncommittedCandidates env → textFileRx file = true →
       env.diffOf file = .ok diff →
       (patternMatchText bearerAt diff.data).isSome = true →
       safePaths.any (fun safe => jsIncludes file safe) = false →
         (gitRun env).status = "fail"
         ∧ "Remove secrets from uncommitted changes before committing"
             ∈ (gitRun env).fix.getD [])
    ∧ ((env.gitDirExists = true) → checkRecentCommitsForSecrets env ≠ [] →
         "Rotate exposed secrets immediately" ∈ (gitRun env).fix.getD [])
    ∧ ((env.gitDirExists = true) → env.statusPorcelain = .ok "" →
       checkUncommittedForSecrets env = [] → checkRecentCommitsForSecrets env = [] →
         (gitRun env).status = "pass"
         ∧ Detail.mk "pass" "Working directory clean" ∈ (gitRun env).details) := by
  refine ⟨?_, ?_, ?_⟩
  · intro hgit file diff hmem htext hdiff hb hsafe
    have hne := checkUncommitted_ne_nil env file diff hmem htext hdiff
      (checkFileForSecrets_bearer_ne_nil diff file hb hsafe)
    have hlen : 0 < (checkUncommittedForSecrets env).length := List.length_pos.mpr hne
    constructor
    · simp [gitRun, hgit, hlen]
    · simp only [gitRun, hgit]
      simp [hlen, List.mem_append]
  · intro hgit hne
    have hlen : 0 < (checkRecentCommitsForSecrets env).length := List.length_pos.mpr hne
    simp only [gitRun, hgit]
    simp [hlen, List.mem_append]
  · intro hgit hst hu hc
    constructor
    · simp [gitRun, hgit, hu, hc]
    · simp only [gitRun, hgit]
      simp [hst, hu, hc, List.mem_append]

/-- A git environment with one changed text file whose diff holds a bearer
token, a clean recent history, and nothing staged. -/
def gitEnvBearer : GitEnv :=
  { gitDirExists := true
    statusPorcelain := .ok " M a.js"
    diffNameOnly := .ok "a.js"
    diffCachedNameOnly := .ok ""
    diffOf := fun _ => .ok "+ auth = bearer abcdefghijklmnopqrstuv"
    logOneline := .ok ""
    commitFiles := fun _ => .ok ""
    showFile := fun _ _ => .ok ""
    branchVv := .ok "" }

/-- A fully clean git environment. -/
def gitEnvClean : GitEnv :=
  { gitDirExists := true
    statusPorcelain := .ok ""
    diffNameOnly := .ok ""
    diffCachedNameOnly := .ok ""
    diffOf := fun _ => .ok ""
    logOneline := .ok ""
    commitFiles := fun _ => .ok ""
    showFile := fun _ _ => .ok ""
    branchVv := .ok "" }

/-- A git environment whose last commit contains a bearer token in a tracked
file (and no uncommitted changes). -/
def gitEnvCommitSecret : GitEnv :=
  { gitDirExists := true
    statusPorcelain := .ok ""
    diffNameOnly := .ok ""
    diffCachedNameOnly := .ok ""
    diffOf := fun _ => .ok ""
    logOneline := .ok "abc1234 add config"
    commitFiles := fun _ => .ok "config.js"
    showFile := fun _ _ => .ok "auth = bearer abcdefghijklmnopqrstuv"
    branchVv := .ok "" }

/-- C7, counterexample to the claim as stated: a bearer-token secret found
only in uncommitted changes gives status `fail`, but no fix in the list
mentions secret rotation (the two fixes are about removing the secret and
using environment variables; rotation is suggested only for commits). -/
theorem gitRun_bearer_no_rotation_fix :
    (gitRun gitEnvBearer).status = "fail"
    ∧ (gitRun gitEnvBearer).fix
        = some ["Remove secrets from uncommitted changes before committing",
                "Use environment variables for sensitive data"]
    ∧ (∀ f ∈ (gitRun gitEnvBearer).fix.getD [], jsIncludes f "otat" = false) := by
  refine ⟨by decide, by decide, by decide⟩

/-- Closed witness for `gitRun_spec` at the three concrete environments. -/
theorem gitRun_spec_witness :
    ((gitRun gitEnvBearer).status = "fail"
     ∧ "Remove secrets from uncommitted changes before committing"
         ∈ (gitRun gitEnvBearer).fix.getD [])
    ∧ "Rotate exposed secrets immediately" ∈ (gitRun gitEnvCommitSecret).fix.getD []
    ∧ ((gitRun gitEnvClean).status = "pass"
       ∧ Detail.mk "pass" "Working directory clean" ∈ (gitRun gitEnvClean).details) :=
  ⟨(gitRun_spec gitEnvBearer).1 rfl "a.js" "+ auth = bearer abcdefghijklmnopqrstuv"
      (by decide) (by decide) rfl (by decide) (by decide),
   (gitRun_spec gitEnvCommitSecret).2.1 rfl (by decide),
   (gitRun_spec gitEnvClean).2.2 rfl rfl (by decide) (by decide)⟩

/-! ## Report formatter (`health-check.js` lines 107-165) and log appender
(`scripts/lib/logger.js` lines 23-32) -/

/-- The `statusEmoji` lookup object of `formatResults`. -/
def statusEmojiMap (status : String) : Option String :=
  if status = "pass" then some "✅"
  else if status = "warning" then some "⚠️"
  else if status = "fail" then some "❌"
  else if status = "error" then some "💥"
  else if status = "unknown" then some "❓"
  else none

/-- JS string interpolation of a possibly-undefined lookup. -/
def emojiOrUndefined (s : Option String) : String :=
  s.getD "undefined"

/-- JS `toUpperCase` (ASCII, as used here). -/
def jsToUpperCase (s : String) : String :=
  String.mk (s.data.map Char.toUpper)

/-- JS `toLowerCase` (ASCII, as used here). -/
def jsToLowerCase (s : String) : String :=
  String.mk (s.data.map Char.toLower)

/-- `formatResults(results, summary)` from `scripts/health-check.js` (lines
107-165); the locale-formatted clock read of the `📅` line is passed in as
`localeDate`.  Empty-string `message`/`error` fields are falsy in JS and
skipped, like absent ones. -/
def formatResults (localeDate : String) (results : List CheckResult) (summary : Summary) :
    String :=
  let headerLines : List String :=
    ["🏥 Clawdbot Health Check Report",
     "📅 " ++ localeDate,
     "📊 Overall Status: " ++ emojiOrUndefined (statusEmojiMap summary.overallStatus)
       ++ " " ++ jsToUpperCase summary.overallStatus,
     "",
     "## Summary",
     "Total Checks: " ++ toString summary.total,
     "✅ Passed: " ++ toString summary.passed,
     "⚠️  Warnings: " ++ toString summary.warnings,
     "❌ Failed: " ++ toString summary.failed,
     "💥 Errors: " ++ toString summary.errors,
     "",
     "## Details"]
  let detailLines : List String := results.flatMap fun result =>
    let emoji := (statusEmojiMap result.status).getD "❓"
    [emoji ++ " " ++ result.name ++ " [" ++ toString result.duration ++ "ms]"]
    ++ (match result.message with
        | some m => if m ≠ "" then ["   " ++ m] else []
        | none => [])
    ++ (match result.details with
        | some ds =>
            if ds.length > 0 then
              ds.map fun d => "   " ++ (if d.status = "pass" then "✓" else "✗") ++ " " ++ d.message
            else []
        | none => [])
    ++ (match result.error with
        | some e => if e ≠ "" then ["   Error: " ++ e] else []
        | none => [])
    ++ (match result.fix with
        | some fx =>
            if fx.length > 0 then ["   💡 Suggested fix:"] ++ fx.map (fun f => "      - " ++ f)
            else []
        | none => [])
    ++ [""]
  String.intercalate "\n" (headerLines ++ detailLines)

/-- The block `logger.append` writes for one report: separator line, `📅` +
ISO timestamp marker, separator line, the report text, and two trailing
newlines.  The `new Date().toISOString()` read is passed in as `timestamp`. -/
def logAppendEntry (timestamp content : String) : String :=
  let separator := String.mk (List.replicate 60 '=')
  separator ++ "\n📅 " ++ timestamp ++ "\n" ++ separator ++ "\n" ++ content ++ "\n\n"

/-! ## Trend parser (`scripts/analyze-trends.js` lines 49-120) -/

/-- JS `content.split(regex)` for the fixed separator pattern
`/={60}\n📅 /`: leftmost, non-overlapping occurrences of the 63-character
token split the string. -/
def splitOnTokenFuel (pat : List Char) : Nat → List Char → List Char → List (List Char)
  | 0, s, acc => [acc.reverse ++ s]
  | _ + 1, [], acc => [acc.reverse]
  | fuel + 1, s@(c :: rest), acc =>
      if pat ≠ [] ∧ pat.isPrefixOf s then
        acc.reverse :: splitOnTokenFuel pat fuel (s.drop pat.length) []
      else
        splitOnTokenFuel pat fuel rest (c :: acc)

/-- `splitOnTokenFuel` with enough fuel (each step consumes at least one
character, so `s.length` steps always finish the scan). -/
def splitOnToken (pat s : List Char) : List (List Char) :=
  splitOnTokenFuel pat s.length s []

/-- The separator pattern `={60}\n📅 ` as characters. -/
def logSepPattern : List Char :=
  List.replicate 60 '=' ++ ['\n', '📅', ' ']

/-- A regex digit-or-dash, `[\d-]`. -/
def isDigitOrDash (c : Char) : Bool :=
  c.isDigit || c = '-'

/-- A regex digit-or-colon, `[\d:]`. -/
def isDigitOrColon (c : Char) : Bool :=
  c.isDigit || c = ':'

/-- A JS regex line terminator (what `.` refuses to match). -/
def isLineTerm (c : Char) : Bool :=
  c = '\n' || c = '\r' || c = Char.ofNat 0x2028 || c = Char.ofNat 0x2029

/-- Backtracking part of the timestamp regex: `[\d:]+.[\d:]+\n` at the head
of `r`, trying the first run's length from `b1` downwards (greedy).  The
second run cannot backtrack: it is maximal and must be followed by `\n`.
Returns the number of characters before the `\n`. -/
def tsTailTry (r : List Char) : Nat → Option Nat
  | 0 => none
  | b1 + 1 =>
      let attempt : Option Nat :=
        if (r.take (b1 + 1)).all isDigitOrColon then
          match r.drop (b1 + 1) with
          | w :: rest2 =>
              if !(isLineTerm w) then
                let run2 := (rest2.takeWhile isDigitOrColon).length
                if run2 ≥ 1 ∧ (rest2.drop run2).head? = some '\n' then
                  some ((b1 + 1) + 1 + run2)
                else none
              else none
          | [] => none
        else none
      match attempt with
      | some n => some n
      | none => tsTailTry r b1

/-- The anchored timestamp regex `^([\d-]+T[\d:]+.[\d:]+)\n` of the trend
parser: the first run is maximal (its class excludes `T`), the rest
backtracks via `tsTailTry`; returns the captured group. -/
def tsMatchGroup (s : List Char) : Option String :=
  let a := (s.takeWhile isDigitOrDash).length
  if a ≥ 1 then
    match s.drop a with
    | 'T' :: r =>
        (tsTailTry r ((r.takeWhile isDigitOrColon).length)).map
          (fun n => String.mk (s.take (a + 1 + n)))
    | _ => none
  else none

/-- Lazy gap of `/## Summary\n([\s\S]+?)##/`: the minimal (possibly empty)
prefix of `s` followed by the token. -/
def lazyCaptureAux (tok : List Char) : List Char → Option (List Char)
  | [] => if tok.isPrefixOf [] then some [] else none
  | s@(c :: rest) =>
      if tok.isPrefixOf s then some []
      else (lazyCaptureAux tok rest).map (fun p => c :: p)

/-- The minimal nonempty prefix of `s` followed by `tok` (`([\s\S]+?)` then
the token). -/
def lazyCapture (tok : List Char) : List Char → Option (List Char)
  | [] => none
  | c :: rest => (lazyCaptureAux tok rest).map (fun p => c :: p)

/-- `entry.match(/## Summary\n([\s\S]+?)##/)?.[1]`: leftmost occurrence of
the header whose lazy capture reaches a later `##`. -/
def summaryCapture : List Char → Option (List Char)
  | [] => none
  | s@(_ :: rest) =>
      if "## Summary\n".data.isPrefixOf s then
        match lazyCapture "##".data (s.drop 11) with
        | some cap => some cap
        | none => summaryCapture rest
      else summaryCapture rest

/-- `entry.match(/## Details\n([\s\S]+)$/)?.[1]`: everything after the first
occurrence of the header (at least one character). -/
def detailsCapture : List Char → Option (List Char)
  | [] => none
  | s@(_ :: rest) =>
      if "## Details\n".data.isPrefixOf s then
        let cap := s.drop 11
        if cap.length ≥ 1 then some cap else detailsCapture rest
      else detailsCapture rest

/-- The key alternation of the summary-line regex. -/
def SUMMARY_KEYS : List String :=
  ["Total", "Passed", "Warnings", "Failed", "Errors", "Overall"]

/-- Decimal digits to a number (`parseInt` on an all-digit prefix). -/
def digitsToNat (ds : List Char) : Nat :=
  ds.foldl (fun n c => n * 10 + (c.toNat - 48)) 0

/-- `parseInt(value) || 0`: the leading digit run as a number, `0` when the
value does not start with a digit (`NaN || 0`). -/
def jsParseIntOr0 (s : String) : Nat :=
  let ds := s.data.takeWhile Char.isDigit
  if ds.length ≥ 1 then digitsToNat ds else 0

/-- The value alternation `(:?\d+|✅|⚠️|❌|💥|PASS|WARNING|FAIL|ERROR|UNKNOWN)`
of the summary-line regex, anchored; returns the matched text. -/
def valueMatchAt (s : List Char) : Option String :=
  let numOpt : Option String :=
    match s with
    | ':' :: r =>
        let ds := r.takeWhile Char.isDigit
        if ds.length ≥ 1 then some (String.mk (':' :: ds)) else none
    | _ =>
        let ds := s.takeWhile Char.isDigit
        if ds.length ≥ 1 then some (String.mk ds) else none
  match numOpt with
  | some v => some v
  | none =>
      if "✅".data.isPrefixOf s then some "✅"
      else if "⚠️".data.isPrefixOf s then some "⚠️"
      else if "❌".data.isPrefixOf s then some "❌"
      else if "💥".data.isPrefixOf s then some "💥"
      else if ciLitAt "PASS" s then some (String.mk (s.take 4))
      else if ciLitAt "WARNING" s then some (String.mk (s.take 7))
      else if ciLitAt "FAIL" s then some (String.mk (s.take 4))
      else if ciLitAt "ERROR" s then some (String.mk (s.take 5))
      else if ciLitAt "UNKNOWN" s then some (String.mk (s.take 7))
      else none

/-- One anchored attempt of the summary-line regex
`/(Total|Passed|Warnings|Failed|Errors|Overall):\s*(value)/i`: key (first
matching alternative), colon, greedy whitespace, then the value alternation;
returns the two captured groups in the subject's original case. -/
def summaryKeyValAt (s : List Char) : Option (String × String) :=
  SUMMARY_KEYS.findSome? fun k =>
    if ciLitAt k s then
      match s.drop k.data.length with
      | ':' :: r =>
          let ws := (r.takeWhile jsIsWhitespace).length
          (valueMatchAt (r.drop ws)).map (fun v => (String.mk (s.take k.data.length), v))
      | _ => none
    else none

/-- Leftmost match of the summary-line regex over a line. -/
def summaryLineMatch : List Char → Option (String × String)
  | [] => none
  | s@(_ :: rest) =>
      match summaryKeyValAt s with
      | some kv => some kv
      | none => summaryLineMatch rest

/-- One iteration of the summary-line loop of the trend parser (lines 76-90):
`overall` sets the status by glyph or word, the other keys store
`parseInt(value) || 0`. -/
def applySummaryLine (s : Summary) (line : String) : Summary :=
  match summaryLineMatch line.data with
  | none => s
  | some (key, value) =>
      let k := jsToLowerCase key
      if k = "overall" then
        if jsIncludes value "✅" || jsIncludes value "PASS" then
          { s with overallStatus := "pass" }
        else if jsIncludes value "⚠️" || jsIncludes value "WARNING" then
          { s with overallStatus := "warning" }
        else if jsIncludes value "❌" || jsIncludes value "FAIL" then
          { s with overallStatus := "fail" }
        else if jsIncludes value "💥" || jsIncludes value "ERROR" then
          { s with overallStatus := "error" }
        else s
      else if k = "total" then { s with total := jsParseIntOr0 value }
      else if k = "passed" then { s with passed := jsParseIntOr0 value }
      else if k = "warnings" then { s with warnings := jsParseIntOr0 value }
      else if k = "failed" then { s with failed := jsParseIntOr0 value }
      else if k = "errors" then { s with errors := jsParseIntOr0 value }
      else s

/-! The check-detail regex `/([✅⚠️❌💥❓])\s+(.+?)\s+\[(\d+)ms\]/` works on
UTF-16 code units in JS; its character class therefore holds the two
surrogate halves of `💥` as separate members, which a code-point model cannot
express.  This one matcher is embedded at the code-unit level. -/

/-- UTF-16 code units of one code point. -/
def charUtf16 (c : Char) : List Nat :=
  if c.toNat < 0x10000 then [c.toNat]
  else [0xD800 + (c.toNat - 0x10000) / 0x400, 0xDC00 + (c.toNat - 0x10000) % 0x400]

/-- UTF-16 code units of a string. -/
def strUtf16 (s : String) : List Nat :=
  s.data.flatMap charUtf16

/-- Code units back to code points (surrogate pairs recombined; a lone
surrogate decodes to U+FFFD as JS string-to-scalar conversion does). -/
def utf16Decode : List Nat → List Char
  | [] => []
  | [u] =>
      if 0xD800 ≤ u ∧ u ≤ 0xDFFF then [Char.ofNat 0xFFFD] else [Char.ofNat u]
  | u :: v :: rest =>
      if 0xD800 ≤ u ∧ u ≤ 0xDBFF then
        if 0xDC00 ≤ v ∧ v ≤ 0xDFFF then
          Char.ofNat (0x10000 + (u - 0xD800) * 0x400 + (v - 0xDC00)) :: utf16Decode rest
        else Char.ofNat 0xFFFD :: utf16Decode (v :: rest)
      else if 0xDC00 ≤ u ∧ u ≤ 0xDFFF then Char.ofNat 0xFFFD :: utf16Decode (v :: rest)
      else Char.ofNat u :: utf16Decode (v :: rest)

/-- The code units of the class `[✅⚠️❌💥❓]` (`💥` contributes its two
surrogate halves). -/
def CHECK_EMOJI_CLASS : List Nat :=
  strUtf16 "✅⚠️❌💥❓"

/-- A `\s` code unit (the whitespace occurring in these reports). -/
def isWsUnit (u : Nat) : Bool :=
  u = 32 || u = 9 || u = 10 || u = 13 || u = 11 || u = 12 || u = 0xA0 || u = 0xFEFF

/-- A line-terminator code unit (excluded by `.`). -/
def isLineTermUnit (u : Nat) : Bool :=
  u = 10 || u = 13 || u = 0x2028 || u = 0x2029

/-- The literal tail `\[(\d+)ms\]` preceded by `\s+` (greedy; `[` is not
whitespace, so the run cannot backtrack); returns the digit units. -/
def checkTailAt (r : List Nat) : Option (List Nat) :=
  let ws := (r.takeWhile isWsUnit).length
  if ws ≥ 1 then
    match r.drop ws with
    | 91 :: r2 =>
        let ds := r2.takeWhile (fun u => 48 ≤ u && u ≤ 57)
        if ds.length ≥ 1 && [109, 115, 93].isPrefixOf (r2.drop ds.length) then some ds
        else none
    | _ => none
  else none

/-- The lazy name group `(.+?)` followed by the tail: the shortest nonempty
run of non-terminator units whose remainder matches the tail. -/
def checkNameTry : List Nat → Option (List Nat × List Nat)
  | [] => none
  | u :: rest =>
      if isLineTermUnit u then none
      else
        match checkTailAt rest with
        | some ds => some ([u], ds)
        | none => (checkNameTry rest).map (fun p => (u :: p.1, p.2))

/-- The part after the class: `\s+(.+?)\s+\[(\d+)ms\]`, trying the first
whitespace run greedily from `w` units downwards. -/
def checkAfterEmojiTry (r : List Nat) : Nat → Option (List Nat × List Nat)
  | 0 => none
  | w + 1 =>
      let attempt :=
        if (r.take (w + 1)).all isWsUnit then checkNameTry (r.drop (w + 1)) else none
      match attempt with
      | some p => some p
      | none => checkAfterEmojiTry r w

/-- Leftmost match of the check-detail regex over a line's code units:
the class unit, the trimmed-later name units and the digit units. -/
def checkLineMatch : List Nat → Option (Nat × List Nat × List Nat)
  | [] => none
  | u :: rest =>
      if CHECK_EMOJI_CLASS.contains u then
        match checkAfterEmojiTry rest ((rest.takeWhile isWsUnit).length) with
        | some p => some (u, p.1, p.2)
        | none => checkLineMatch rest
      else checkLineMatch rest

/-- One parsed check line of a trend entry. -/
structure TrendCheck where
  name : String
  status : String
  duration : Nat
deriving Repr, DecidableEq

/-- One parsed log entry of the trend parser. -/
structure TrendEntry where
  timestamp : String
  summary : Summary
  checks : List TrendCheck
deriving Repr, DecidableEq

/-- The check-line loop of the trend parser (lines 93-114): the status glyph
comparisons are against the full two-unit strings for `⚠️` and `💥`, while
the captured group is a single code unit, exactly as in JS. -/
def parseCheckLines (dcap : List Char) : List TrendCheck :=
  (jsSplitChar '\n' (String.mk dcap)).filterMap fun line =>
    match checkLineMatch (strUtf16 line) with
    | none => none
    | some (u, nameUnits, ds) =>
        let g : List Nat := [u]
        let status :=
          if g = strUtf16 "✅" then "pass"
          else if g = strUtf16 "⚠️" then "warning"
          else if g = strUtf16 "❌" then "fail"
          else if g = strUtf16 "💥" then "error"
          else "unknown"
        some ⟨jsTrim (String.mk (utf16Decode nameUnits)), status, digitsToNat (utf16Decode ds)⟩

/-- The summary defaults of the trend parser before the summary lines are
folded in. -/
def initialTrendSummary : Summary :=
  { total := 0, passed := 0, warnings := 0, failed := 0, errors := 0,
    overallStatus := "unknown" }

/-- `parseHealthCheckLog(content)` of `scripts/analyze-trends.js` (lines
49-119) before the final sort: split on the separator pattern, skip blank
chunks and chunks without a leading timestamp match or summary match, then
extract summary counts and check lines. -/
def parseHealthCheckLogEntries (content : String) : List TrendEntry :=
  (splitOnToken logSepPattern content.data).filterMap fun entry =>
    if jsTrim (String.mk entry) = "" then none
    else
      match tsMatchGroup entry with
      | none => none
      | some ts =>
          match summaryCapture entry with
          | none => none
          | some cap =>
              let summaryLines := jsSplitChar '\n' (jsTrim (String.mk cap))
              let summary := summaryLines.foldl applySummaryLine initialTrendSummary
              let checks :=
                match detailsCapture entry with
                | some dcap => parseCheckLines dcap
                | none => []
              some ⟨ts, summary, checks⟩

/-- `parseHealthCheckLog` with its final stable sort by timestamp (the JS
numeric Date comparison, rendered as the lexicographic order on the ISO-like
timestamp strings). -/
def parseHealthCheckLog (content : String) : List TrendEntry :=
  (parseHealthCheckLogEntries content).mergeSort fun a b => a.timestamp ≤ b.timestamp

/-- A one-check run used to exercise the log round trip. -/
def roundTripResults : List CheckResult :=
  [{ name := "Config Check", status := "pass", duration := 5 }]

/-- C2: the round trip fails on every entry the logger writes.  The log block
built by `logger.append` for the formatted report of `roundTripResults`
starts its chunk (after the split) with `2025-06-01T08:30:00.000Z\n…`, and
the parser's anchored timestamp regex `^([\d-]+T[\d:]+.[\d:]+)\n` cannot
match it — the `Z` written by `toISOString()` sits between the final digit
run and the newline but is in neither character class, and the single `.`
wildcard is already spent on the millisecond dot.  Every chunk is therefore
skipped and the parser recovers nothing, although the report encodes a
summary with `total = 1`. -/
theorem parseHealthCheckLog_of_logged_report :
    parseHealthCheckLog (logAppendEntry "2025-06-01T08:30:00.000Z"
        (formatResults "2025/6/1 16:30:00" roundTripResults
          (generateSummary roundTripResults))) = []
    ∧ (generateSummary roundTripResults).total = 1 := by
  constructor
  · have h : parseHealthCheckLogEntries (logAppendEntry "2025-06-01T08:30:00.000Z"
        (formatResults "2025/6/1 16:30:00" roundTripResults
          (generateSummary roundTripResults))) = [] := by decide
    rw [parseHealthCheckLog, h]
    simp
  · decide
/-- `takeWhile` stops exactly at the first non-satisfying character after an
all-satisfying prefix. -/
theorem takeWhile_append_cons (p : Char → Bool) (l : List Char) (c : Char) (r : List Char)
    (hl : l.all p = true) (hc : p c = false) :
    (l ++ c :: r).takeWhile p = l := by
  induction l with
  | nil => simp [List.takeWhile_cons, hc]
  | cons x xs ih =>
      simp only [List.all_cons, Bool.and_eq_true] at hl
      simp [List.takeWhile_cons, hl.1, ih hl.2]

/-- A digit-or-colon character is not a line terminator. -/
theorem digitColon_not_lineTerm (c : Char) (h : isDigitOrColon c = true) :
    isLineTerm c = false := by
  cases hx : isLineTerm c
  · rfl
  · exfalso
    simp only [isLineTerm, Bool.or_eq_true, decide_eq_true_eq] at hx
    rcases hx with ((rfl | rfl) | rfl) | rfl <;> exact absurd h (by decide)

/-- A digit is a digit-or-colon. -/
theorem digit_isDigitOrColon (c : Char) (h : c.isDigit = true) :
    isDigitOrColon c = true := by
  simp [isDigitOrColon, h]

/-- No candidate length of the first `[\d:]+` run can make
`[\d:]+.[\d:]+\n` match the tail `t.ms Z…` written by `toISOString`. -/
theorem tsTailTry_isoZ_none (t ms rest : List Char) (ht : t.all isDigitOrColon = true)
    (hmsd : ms.all Char.isDigit = true) :
    ∀ b1, b1 ≤ t.length →
      tsTailTry (t ++ '.' :: (ms ++ 'Z' :: rest)) b1 = none := by
  have hmsdc : ms.all isDigitOrColon = true := by
    rw [List.all_eq_true] at hmsd ⊢
    exact fun c hc => digit_isDigitOrColon c (hmsd c hc)
  intro b1
  induction b1 with
  | zero => intro _; rfl
  | succ b1 ih =>
      intro hle
      have ihle : tsTailTry (t ++ '.' :: (ms ++ 'Z' :: rest)) b1 = none :=
        ih (Nat.le_of_succ_le hle)
      unfold tsTailTry
      simp only [ihle]
      have hattempt :
          (if ((t ++ '.' :: (ms ++ 'Z' :: rest)).take (b1 + 1)).all isDigitOrColon then
            match (t ++ '.' :: (ms ++ 'Z' :: rest)).drop (b1 + 1) with
            | w :: rest2 =>
                if !(isLineTerm w) then
                  let run2 := (rest2.takeWhile isDigitOrColon).length
                  if run2 ≥ 1 ∧ (rest2.drop run2).head? = some '\n' then
                    some ((b1 + 1) + 1 + run2)
                  else none
                else none
            | [] => none
          else none) = none := by
        have htake : ((t ++ '.' :: (ms ++ 'Z' :: rest)).take (b1 + 1)).all isDigitOrColon
            = true := by
          have : (t ++ '.' :: (ms ++ 'Z' :: rest)).take (b1 + 1) = t.take (b1 + 1) := by
            rw [List.take_append_eq_append_take]
            have : b1 + 1 - t.length = 0 := by omega
            rw [this]
            simp
          rw [this, List.all_eq_true]
          intro c hc
          exact (List.all_eq_true.mp ht) c (List.mem_of_mem_take hc)
        rw [if_pos htake]
        have hdrop : (t ++ '.' :: (ms ++ 'Z' :: rest)).drop (b1 + 1)
            = t.drop (b1 + 1) ++ '.' :: (ms ++ 'Z' :: rest) := by
          rw [List.drop_append_eq_append_drop]
          have : b1 + 1 - t.length = 0 := by omega
          rw [this]
          simp
        rw [hdrop]
        cases htd : t.drop (b1 + 1) with
        | nil =>
            simp only [List.nil_append]
            have hw : isLineTerm '.' = false := by decide
            simp only [hw, Bool.not_false, if_true]
            have hrun : ((ms ++ 'Z' :: rest).takeWhile isDigitOrColon) = ms :=
              takeWhile_append_cons _ ms 'Z' rest hmsdc (by decide)
            simp only [hrun]
            rw [List.drop_append_eq_append_drop]
            simp
        | cons c t' =>
            simp only [List.cons_append]
            have hcin : isDigitOrColon c = true := by
              have : c ∈ t := by
                have : c ∈ t.drop (b1 + 1) := by rw [htd]; exact List.mem_cons_self c t'
                exact List.mem_of_mem_drop this
              exact (List.all_eq_true.mp ht) c this
            rw [digitColon_not_lineTerm c hcin]
            simp only [Bool.not_false, if_true]
            have ht' : t'.all isDigitOrColon = true := by
              rw [List.all_eq_true]
              intro x hx
              have : x ∈ t := by
                have : x ∈ t.drop (b1 + 1) := by rw [htd]; exact List.mem_cons_of_mem c hx
                exact List.mem_of_mem_drop this
              exact (List.all_eq_true.mp ht) x this
            have hrun : ((t' ++ '.' :: (ms ++ 'Z' :: rest)).takeWhile isDigitOrColon) = t' :=
              takeWhile_append_cons _ t' '.' _ ht' (by decide)
            simp only [hrun]
            rw [List.drop_append_eq_append_drop]
            simp
      rw [hattempt]

/-- The trend parser's anchored timestamp regex rejects every string of the
shape `toISOString()` produces (`digits/dashes` `T` `digits/colons` `.`
`digits` `Z` newline …): the `Z` fits in no character class and the single
wildcard is spent on the dot. -/
theorem tsMatchGroup_isoZ_none (d t ms rest : List Char)
    (hd0 : d ≠ []) (hd : d.all isDigitOrDash = true)
    (_ht0 : t ≠ []) (ht : t.all isDigitOrColon = true)
    (_hms0 : ms ≠ []) (hms : ms.all Char.isDigit = true) :
    tsMatchGroup (d ++ 'T' :: (t ++ '.' :: (ms ++ 'Z' :: rest))) = none := by
  unfold tsMatchGroup
  have h1 : (d ++ 'T' :: (t ++ '.' :: (ms ++ 'Z' :: rest))).takeWhile isDigitOrDash = d :=
    takeWhile_append_cons _ d 'T' _ hd (by decide)
  rw [h1]
  have hlen : d.length ≥ 1 := by
    cases d with
    | nil => simp at hd0
    | cons x xs => simp
  rw [if_pos hlen]
  rw [List.drop_left]
  have h2 : ((t ++ '.' :: (ms ++ 'Z' :: rest)).takeWhile isDigitOrColon) = t :=
    takeWhile_append_cons _ t '.' _ ht (by decide)
  have h3 : tsTailTry (t ++ '.' :: (ms ++ 'Z' :: rest))
      (((t ++ '.' :: (ms ++ 'Z' :: rest)).takeWhile isDigitOrColon).length) = none := by
    rw [h2]
    exact tsTailTry_isoZ_none t ms rest ht hms t.length (Nat.le_refl _)
  show (tsTailTry (t ++ '.' :: (ms ++ 'Z' :: rest))
      (((t ++ '.' :: (ms ++ 'Z' :: rest)).takeWhile isDigitOrColon).length)).map
      (fun n => String.mk ((d ++ 'T' :: (t ++ '.' :: (ms ++ 'Z' :: rest))).take
        (d.length + 1 + n))) = none
  rw [h3]
  rfl

